import Mathlib

/-! comedian: notification scheduling and report ranking.

A shallow embedding of the scheduling, engagement and report-scoring code of
`botuser/notifications.go`, `botuser/botuser.go`, `botuser/reporting.go` and
`reporting/reporting.go`, followed by theorems about it.

Conventions of the embedding:

* Go `int` / `int64` values are `Int`.  The one subtraction on timestamps is
  wrapped explicitly (`wrap64`); counters are only incremented below a bound
  that is itself an `int`.  The Go operators `/` and `%` on integers are the
  truncating `Int.tdiv` and `Int.tmod`.
* The `float64` arithmetic of `SecondsToHuman` is modelled exactly, as
  rounding of rationals to 53-bit significands (`roundNearestEven`).
* A Go slice that is updated in place is a `List` threaded through the loop.
* An index expression that would panic in Go makes the model return `none`.
* Collaborators that live outside the repository (the store, the chat client,
  the localizer, the time-expression resolver) are fields of an environment
  record, and theorems quantify over all environments.  The retry driver
  `backoff.Retry` is the loop `retryNotifyNotAll`.
-/

namespace Comedian

/-! ## Data model -/

/-- The part of `slack.AttachmentField` that the report builders fill in. -/
structure AttachmentField where
  Value : String
  Short : Bool
deriving DecidableEq

/-- The part of `slack.Attachment` that the report builders fill in. -/
structure Attachment where
  Text : String
  Color : String
  Fields : List AttachmentField
deriving DecidableEq

/-- Go `AttachmentItem` (botuser/reporting.go:27, model/model.go:109). -/
structure AttachmentItem where
  SlackAttachment : Attachment
  Points : Int
deriving DecidableEq

/-! ## Ranking: `sweep` and `sortReportEntries` -/

/-- The `for secondIndex < (N - prevPasses)` loop of `sweep`
(botuser/reporting.go:614-625, reporting/reporting.go:624-635).

`secondIndex` is always `firstIndex + 1`, and `N` and `prevPasses` do not
change, so the first argument is the number of iterations that are left,
`(N - prevPasses) - secondIndex`.  The state is the slice, `firstIndex` and
`didSwap`.  An out-of-range index gives `none`. -/
def sweepLoop : Nat → List AttachmentItem → Nat → Bool → Option (List AttachmentItem × Bool)
  | 0, entries, _, didSwap => some (entries, didSwap)
  | k + 1, entries, firstIndex, didSwap =>
    let secondIndex := firstIndex + 1
    match entries[firstIndex]?, entries[secondIndex]? with
    | some firstItem, some secondItem =>
      if firstItem.Points < secondItem.Points then
        sweepLoop k ((entries.set firstIndex secondItem).set secondIndex firstItem)
          (firstIndex + 1) true
      else
        sweepLoop k entries (firstIndex + 1) didSwap
    | _, _ => none

/-- Go `sweep(entries, prevPasses)`: one pass over the first `N - prevPasses`
entries, returning the updated slice and `didSwap`.  The loop starts with
`secondIndex = 1`, so it runs `N - prevPasses - 1` times (not at all when
`N - prevPasses <= 1`). -/
def sweep (entries : List AttachmentItem) (prevPasses : Nat) :
    Option (List AttachmentItem × Bool) :=
  sweepLoop (entries.length - prevPasses - 1) entries 0 false

/-- The `for i := 0; i < len(entries); i++ { if !sweep(entries, i) { break } }`
loop of `sortReportEntries`; the first argument is `len(entries) - i`. -/
def sortLoop : Nat → List AttachmentItem → Nat → Option (List AttachmentItem)
  | 0, entries, _ => some entries
  | k + 1, entries, i =>
    match sweep entries i with
    | none => none
    | some (entries1, didSwap) =>
      if !didSwap then some entries1 else sortLoop k entries1 (i + 1)

/-- The contents of `entries` when the sorting loop of `sortReportEntries`
has finished. -/
def sortedEntries (entries : List AttachmentItem) : Option (List AttachmentItem) :=
  sortLoop entries.length entries 0

/-- Go `Bot.sortReportEntries` and `Reporter.sortReportEntries` (the two bodies
are the same): sort in place, then collect the `SlackAttachment` of every
entry in order. -/
def sortReportEntries (entries : List AttachmentItem) : Option (List Attachment) :=
  (sortedEntries entries).map (fun es => es.map (fun item => item.SlackAttachment))

/-- One bubble pass written by structural recursion on the list: `bubble k l`
performs `k` adjacent comparisons from the head of `l`.  Used only to reason
about `sweepLoop`. -/
def bubble : Nat → List AttachmentItem → List AttachmentItem
  | k + 1, a :: b :: rest =>
    if a.Points < b.Points then b :: bubble k (a :: rest) else a :: bubble k (b :: rest)
  | _, l => l

/-- Whether `bubble k l` exchanges at least one pair. -/
def bubbleSwapped : Nat → List AttachmentItem → Bool
  | k + 1, a :: b :: rest =>
    if a.Points < b.Points then true else bubbleSwapped k (b :: rest)
  | _, _ => false

/-- The order that the report ranking establishes: the earlier entry has at
least as many points as the later one. -/
def rankedBefore (a b : AttachmentItem) : Prop := b.Points ≤ a.Points

/-- An entry with the given attachment text and rank key, for examples. -/
def mkItem (text : String) (points : Int) : AttachmentItem :=
  ⟨⟨text, "", []⟩, points⟩

/-! ## Time

The part of Go's `time` package that the code uses.  A `Time` is an instant
(Unix seconds) together with the UTC offset, in seconds east, that its
location has at that instant.  As in Go, the calendar fields are read off
the absolute seconds `abs()`, an unsigned 64-bit count from the first of
January of the year -292277022399. -/

/-- Go `time.Time`, as far as the code observes it. -/
structure Time where
  unix : Int
  offset : Int
deriving DecidableEq

/-- Go `t.abs()`: `uint64(sec + (unixToInternal + internalToAbsolute))` with
`sec` the Unix seconds plus the zone offset; the sum of the two constants is
9223372028715321600, a whole number of days, and the `int64` addition and
the conversion to `uint64` together reduce modulo `2^64`. -/
def Time.abs (t : Time) : Int := (t.unix + t.offset + 9223372028715321600) % 2 ^ 64

/-- Go `t.Hour()`: `int(abs % secondsPerDay) / secondsPerHour`, in 0..23. -/
def Time.Hour (t : Time) : Int := (t.abs % 86400) / 3600

/-- Go `t.Minute()`: `int(abs % secondsPerHour) / secondsPerMinute`, in 0..59. -/
def Time.Minute (t : Time) : Int := (t.abs % 3600) / 60

/-- Go `int(t.Weekday())`: the absolute zero is a Monday, so the weekday is
`(abs + 1 day) % 1 week / 1 day` in `uint64`; Sunday is 0, Saturday is 6. -/
def Time.Weekday (t : Time) : Int := ((t.abs + 86400) % 2 ^ 64 % 604800) / 86400

/-- Proleptic Gregorian date `(year, month, day)` of the day that lies `days`
days after 1970-01-01. -/
def civilFromDays (days : Int) : Int × Int × Int :=
  let z := days + 719468
  let era := z / 146097
  let doe := z - era * 146097
  let yoe := (doe - doe / 1460 + doe / 36524 - doe / 146096) / 365
  let doy := doe - (365 * yoe + yoe / 4 - yoe / 100)
  let mp := (5 * doy + 2) / 153
  let d := doy - (153 * mp + 2) / 5 + 1
  let m := if mp < 10 then mp + 3 else mp - 9
  let y := yoe + era * 400 + (if m ≤ 2 then 1 else 0)
  (y, m, d)

/-- Go `t.Date()`: year, month and day of the month of the absolute day
`abs / secondsPerDay`; the Unix epoch is the absolute day 106751991073094. -/
def Time.Date (t : Time) : Int × Int × Int :=
  civilFromDays (t.abs / 86400 - 106751991073094)

/-- Go `t.Day()`: the day of the month, in 1..31. -/
def Time.Day (t : Time) : Int := t.Date.2.2

/-- Two's-complement wrap of an `int64` result. -/
def wrap64 (x : Int) : Int := (x + 2 ^ 63) % 2 ^ 64 - 2 ^ 63

/-- Go `time.Unix(sec, 0)`: the instant `sec` in the process-local location,
whose offset at each instant is the function `Local`. -/
def timeUnix (Local : Int → Int) (sec : Int) : Time := ⟨sec, Local sec⟩

/-- Go `t.In(time.FixedZone(name, offset))`. -/
def Time.InFixedZone (t : Time) (offset : Int) : Time := ⟨t.unix, offset⟩

/-! ## Records of the store and the chat client -/

/-- Go `model.Channel` (model/model.go:41). -/
structure Channel where
  ID : Int
  TeamID : String
  ChannelName : String
  ChannelID : String
  StandupTime : String
deriving DecidableEq

/-- Go `model.Standuper` (model/model.go:50), without its timestamps. -/
structure Standuper where
  ID : Int
  TeamID : String
  UserID : String
  ChannelID : String
  RoleInChannel : String
  RealName : String
  ChannelName : String
deriving DecidableEq

/-- The standup record as `submittedStandupToday` reads it: `CreatedAt` is a
Unix timestamp. -/
structure Standup where
  CreatedAt : Int
  ChannelID : String
  UserID : String
  Comment : String
  MessageTS : String
deriving DecidableEq

/-- The fields of the chat profile (`slack.User`) that are read. -/
structure UserProfile where
  TZ : String
  TZOffset : Int
deriving DecidableEq

/-- Go `NotifierThread` (botuser/notifications.go:19).  The `quit` channel is
a runtime handle without observable content and is left out. -/
structure NotifierThread where
  channel : Channel
deriving DecidableEq

/-- The settings `bot.properties` that the notification code reads. -/
structure Properties where
  TeamID : String
  ReminderTime : Int
  ReminderRepeatsMax : Int
  NotifierInterval : Int
deriving DecidableEq

/-! ## Localizer -/

/-- The arguments of one `bot.localizer.Localize` call: message ID, plural
count if given, and the template data with every value rendered as text. -/
structure LocalizeConfig where
  ID : String
  PluralCount : Option Int
  TemplateData : List (String × String)
deriving DecidableEq

/-- The localizer: the text that `Localize` returns.  Its error result is only
logged by the callers, so it is not modelled. -/
abbrev Localizer := LocalizeConfig → String

/-! ## Engagement tracker: `submittedStandupToday` -/

/-- What `submittedStandupToday` reads from outside: the store lookup
`bot.db.SelectLatestStandupByUser`, the chat lookup `bot.slack.GetUserInfo`,
the instant `time.Now()` and the process-local location. -/
structure TrackerEnv where
  SelectLatestStandupByUser : String → String → Except String Standup
  GetUserInfo : String → Except String UserProfile
  Now : Int
  Local : Int → Int

/-- Go `Bot.submittedStandupToday` (botuser/botuser.go:253-272).
`time.Unix(standup.CreatedAt, 0)` is in the process-local location, and
`time.Now().UTC().In(loc)` is in the fixed zone built from the profile. -/
def submittedStandupToday (env : TrackerEnv) (userID channelID : String) : Bool :=
  match env.SelectLatestStandupByUser userID channelID with
  | .error _ => false
  | .ok standup =>
    match env.GetUserInfo userID with
    | .error _ => false
    | .ok userProfile =>
      if (timeUnix env.Local standup.CreatedAt).Day
          = (Time.InFixedZone ⟨env.Now, 0⟩ userProfile.TZOffset).Day then
        true
      else
        false

/-! ## Retry-bounded notifier: `notifyNotAll` and its retry loop -/

/-- What one invocation of `notifyNotAll` reads from outside: the store lookup
`bot.db.ListChannelStandupers`, the engagement tracker, the localizer, and
whether the `bot.SendMessage` call of this invocation succeeds. -/
structure NotifyEnv where
  ListChannelStandupers : String → Except String (List Standuper)
  submitted : String → String → Bool
  localizer : Localizer
  SendMessage : String → String → Bool

/-- One call of `bot.SendMessage(channel, text, nil)` and whether it returned
a nil error. -/
structure SentMessage where
  channel : String
  text : String
  delivered : Bool
deriving DecidableEq

/-- The outcome of one invocation of `notifyNotAll`: the returned error (`none`
is Go's `nil`), the value of `*repeats` afterwards, and the `SendMessage`
calls made. -/
structure NotifyResult where
  err : Option String
  repeats : Int
  sent : List SentMessage
deriving DecidableEq

/-- The mentions `nonReporters` that `notifyNotAll` collects
(botuser/notifications.go:201-206). -/
def nonReporterTags (env : NotifyEnv) (standupers : List Standuper) : List String :=
  (standupers.filter (fun standuper =>
      !env.submitted standuper.UserID standuper.ChannelID
        && decide (standuper.RoleInChannel ≠ "pm"))).map
    (fun standuper => "<@" ++ standuper.UserID ++ ">")

/-- Go `Bot.notifyNotAll(channelID, repeats)` (botuser/notifications.go:186-231). -/
def notifyNotAll (env : NotifyEnv) (ReminderRepeatsMax : Int) (channelID : String)
    (repeats : Int) : NotifyResult :=
  if repeats ≥ ReminderRepeatsMax then
    ⟨none, repeats, []⟩
  else
    match env.ListChannelStandupers channelID with
    | .error e => ⟨some e, repeats, []⟩
    | .ok standupers =>
      if standupers.length = 0 then
        ⟨none, repeats, []⟩
      else
        let nonReporters := nonReporterTags env standupers
        if nonReporters.length = 0 then
          ⟨none, repeats, []⟩
        else
          let tagNonReporters := env.localizer
            ⟨"tagNonReporters", some (nonReporters.length : Int),
              [("user", nonReporters.headD ""), ("users", ", ".intercalate nonReporters)]⟩
          let delivered := env.SendMessage channelID tagNonReporters
          ⟨some "Continue backoff", repeats + 1, [⟨channelID, tagNonReporters, delivered⟩]⟩

/-- The result of a finished campaign: how often `notifyNotAll` was invoked,
the final repeat counter, and all `SendMessage` calls in order. -/
structure Campaign where
  invocations : Nat
  repeats : Int
  sent : List SentMessage
deriving DecidableEq

/-- The retry loop that `backoff.Retry` with a constant back-off runs around
`notifyNotAll` (botuser/notifications.go:164-178): invoke the operation, stop
when it returns nil, invoke it again after the interval when it returns an
error.  `envs n` is the outside world at invocation number `n`.  The first
argument is fuel: `none` means that the loop has not stopped within that many
invocations.  The `select` on `nt.quit` in the closure is the cancellation
path; this is the loop as it runs while no cancellation is signalled. -/
def retryNotifyNotAll (envs : Nat → NotifyEnv) (ReminderRepeatsMax : Int)
    (channelID : String) : Nat → Nat → Int → List SentMessage → Option Campaign
  | 0, _, _, _ => none
  | fuel + 1, n, repeats, sent =>
    let r := notifyNotAll (envs n) ReminderRepeatsMax channelID repeats
    match r.err with
    | none => some ⟨n + 1, r.repeats, sent ++ r.sent⟩
    | some _ => retryNotifyNotAll envs ReminderRepeatsMax channelID fuel (n + 1) r.repeats
        (sent ++ r.sent)

/-! ## Scheduler: `NotifyChannels` -/

/-- The result `(r, err)` of `w.Parse(channel.StandupTime, time.Now())`: an
error, no match (`r == nil`), or a match with its resolved instant `r.Time`. -/
inductive ParseResult where
  | error (msg : String)
  | noMatch
  | found (Time : Time)
deriving DecidableEq

/-- What `NotifyChannels` reads from outside: the settings, the store lookup
`bot.db.ListChannels`, the time-expression resolver applied at `time.Now()`,
and the process-local location. -/
structure SchedulerEnv where
  properties : Properties
  ListChannels : Except String (List Channel)
  Parse : String → ParseResult
  Local : Int → Int

/-- The calls with an outside effect that `NotifyChannels` makes. -/
inductive Action where
  | SendWarning (channelID : String)
  | SendChannelNotification (nt : NotifierThread)
deriving DecidableEq

/-- The mutable state of the bot around `NotifyChannels`: the notifier list
`bot.notifierThreads` and the trace of the calls made so far, oldest first. -/
structure BotState where
  notifierThreads : List NotifierThread
  actions : List Action
deriving DecidableEq

/-- Go `Bot.AddNewNotifierThread` (botuser/notifications.go:234-236). -/
def AddNewNotifierThread (st : BotState) (nt : NotifierThread) : BotState :=
  { st with notifierThreads := st.notifierThreads ++ [nt] }

/-- The body of the `for _, channel := range channels` loop of `NotifyChannels`
(botuser/notifications.go:37-82). -/
def notifyChannel (env : SchedulerEnv) (t : Time) (st : BotState) (channel : Channel) :
    BotState :=
  if channel.TeamID ≠ env.properties.TeamID then st
  else if channel.StandupTime = "" then st
  else
    match env.Parse channel.StandupTime with
    | .error _ => st
    | .noMatch => st
    | .found rTime =>
      let warningTime := timeUnix env.Local
        (wrap64 (rTime.unix - wrap64 (env.properties.ReminderTime * 60)))
      let st1 : BotState :=
        if t.Hour = warningTime.Hour ∧ t.Minute = warningTime.Minute then
          { st with actions := st.actions ++ [Action.SendWarning channel.ChannelID] }
        else st
      if t.Hour = rTime.Hour ∧ t.Minute = rTime.Minute then
        let nt : NotifierThread := ⟨channel⟩
        AddNewNotifierThread
          { st1 with actions := st1.actions ++ [Action.SendChannelNotification nt] } nt
      else st1

/-- Go `Bot.NotifyChannels(t)` (botuser/notifications.go:25-83). -/
def NotifyChannels (env : SchedulerEnv) (t : Time) (st : BotState) : BotState :=
  if t.Weekday = 6 ∨ t.Weekday = 0 then st
  else
    match env.ListChannels with
    | .error _ => st
    | .ok channels => channels.foldl (notifyChannel env t) st

/-- The threads that one weekday tick registers: one for every own-workspace
channel with a non-empty deadline that resolves to the tick's hour and
minute, in store order. -/
def startedThreads (env : SchedulerEnv) (t : Time) (channels : List Channel) :
    List NotifierThread :=
  (channels.filter (fun channel =>
      decide (channel.TeamID = env.properties.TeamID) && decide (channel.StandupTime ≠ "") &&
        (match env.Parse channel.StandupTime with
          | .found rTime => decide (t.Hour = rTime.Hour ∧ t.Minute = rTime.Minute)
          | _ => false))).map (fun channel => (⟨channel⟩ : NotifierThread))

/-- The threads that one tick registers: none on a weekend tick or when the
channel listing fails, otherwise those of `startedThreads`. -/
def registeredByTick (env : SchedulerEnv) (t : Time) : List NotifierThread :=
  if t.Weekday = 6 ∨ t.Weekday = 0 then []
  else
    match env.ListChannels with
    | .error _ => []
    | .ok channels => startedThreads env t channels

/-! ## Report scoring -/

/-- Go `fmt.Sprintf("%02d", m)`: at least two characters, zero-padded. -/
def pad2 (m : Int) : String :=
  if 0 ≤ m ∧ m < 10 then "0" ++ toString m else toString m

/-- A finite IEEE-754 binary64 value, `(-1)^neg * mant * 2^exp`.  Only the
operations that `SecondsToHuman` performs are modelled, and only for results
in the normal range, which holds every quotient of an `int64` by 60 or by
3600. -/
structure Float64 where
  neg : Bool
  mant : Nat
  exp : Int
deriving DecidableEq

/-- The halving loop behind `floorLog2`; the first argument bounds the number
of halvings. -/
def log2Steps : Nat → Nat → Nat
  | 0, _ => 0
  | fuel + 1, n => if 2 ≤ n then log2Steps fuel (n / 2) + 1 else 0

/-- The exponent of the highest set bit of `n`, for `n > 0`. -/
def floorLog2 (n : Nat) : Nat := log2Steps n n

/-- Round the rational `num / den` to the nearest number with a 53-bit
significand, ties to even: the result is `mant * 2^exp`.  With `e` the
exponent of the binade of `num / den`, the quotient is scaled by `2^(52 - e)`
into `[2^52, 2^53)` and rounded to an integer there. -/
def roundNearestEven (num den : Nat) : Nat × Int :=
  if num = 0 ∨ den = 0 then (0, 0)
  else
    let e0 : Int := (floorLog2 num : Int) - (floorLog2 den : Int)
    let atLeast : Bool :=
      if 0 ≤ e0 then decide (2 ^ e0.toNat * den ≤ num)
      else decide (den ≤ num * 2 ^ (-e0).toNat)
    let e : Int := if atLeast then e0 else e0 - 1
    let s : Int := 52 - e
    let sn : Nat := if 0 ≤ s then num * 2 ^ s.toNat else num
    let sd : Nat := if 0 ≤ s then den else den * 2 ^ (-s).toNat
    let f := sn / sd
    let r := sn % sd
    let m := if 2 * r < sd then f else if sd < 2 * r then f + 1
      else if f % 2 = 0 then f else f + 1
    (m, -s)

/-- Go `float64(x)` for an `int`. -/
def Float64.ofInt (x : Int) : Float64 :=
  ⟨decide (x < 0), (roundNearestEven x.natAbs 1).1, (roundNearestEven x.natAbs 1).2⟩

/-- Go `x / d` for a `float64` `x` and a positive integer constant `d` that is
itself a `float64` (here 60): the exact quotient, correctly rounded. -/
def Float64.divNat (x : Float64) (d : Nat) : Float64 :=
  let num : Nat := if 0 ≤ x.exp then x.mant * 2 ^ x.exp.toNat else x.mant
  let den : Nat := if 0 ≤ x.exp then d else d * 2 ^ (-x.exp).toNat
  ⟨x.neg, (roundNearestEven num den).1, (roundNearestEven num den).2⟩

/-- Go `int(math.Floor(x))`. -/
def Float64.floor (x : Float64) : Int :=
  if 0 ≤ x.exp then
    (if x.neg then -1 else 1) * ((x.mant * 2 ^ x.exp.toNat : Nat) : Int)
  else
    let q : Int := ((x.mant / 2 ^ (-x.exp).toNat : Nat) : Int)
    let r : Nat := x.mant % 2 ^ (-x.exp).toNat
    if x.neg then (if r = 0 then -q else -q - 1) else q

/-- The value `int(hours)` in `SecondsToHuman`:
`math.Floor(float64(input) / 60 / 60)`. -/
def humanHours (input : Int) : Int :=
  Float64.floor (Float64.divNat (Float64.divNat (Float64.ofInt input) 60) 60)

/-- The value `int(minutes)` in `SecondsToHuman`: `seconds := input % (60 * 60)`
with Go's truncating remainder, then `math.Floor(float64(seconds) / 60)`. -/
def humanMinutes (input : Int) : Int :=
  Float64.floor (Float64.divNat (Float64.ofInt (Int.tmod input (60 * 60))) 60)

/-- Go `SecondsToHuman` (botuser/reporting.go:681-686):
`fmt.Sprintf("%v:%02d", int(hours), int(minutes))`. -/
def SecondsToHuman (input : Int) : String :=
  toString (humanHours input) ++ ":" ++ pad2 (humanMinutes input)

/-- The `switch` on `w` in `processWorklogs`: emoji and points. -/
def worklogsBucket (w : Int) : String × Int :=
  if w < 3 then (":angry:", 0)
  else if w ≥ 3 ∧ w < 7 then (":disappointed:", 0)
  else if w ≥ 7 ∧ w < 9 then (":wink:", 0 + 1)
  else if w ≥ 9 then (":sunglasses:", 0 + 1)
  else ("", 0)

/-- The `switch` on `w` in `processWeeklyWorklogs`: emoji and points. -/
def weeklyWorklogsBucket (w : Int) : String × Int :=
  if w < 31 then (":disappointed:", 0)
  else if w ≥ 31 ∧ w < 35 then (":wink:", 0 + 1)
  else if w ≥ 35 then (":sunglasses:", 0 + 1)
  else ("", 0)

/-- The `switch` on `c` in `processCommits`: emoji and points.  There is no
case for a negative count. -/
def commitsBucket (c : Int) : String × Int :=
  if c = 0 then (":shit:", 0)
  else if c > 0 then (":wink:", 0 + 1)
  else ("", 0)

/-- Go `Bot.processWorklogs` (botuser/reporting.go:407-460).  `weekday` is
`int(time.Now().Weekday())`. -/
def processWorklogs (localizer : Localizer) (weekday : Int)
    (totalWorklogs projectWorklogs : Int) : String × Int :=
  let w := Int.tdiv totalWorklogs 3600
  let worklogsEmoji := (worklogsBucket w).1
  let points := (worklogsBucket w).2
  let worklogsTime :=
    if totalWorklogs ≠ projectWorklogs then
      localizer ⟨"worklogsTime", none,
        [("projectWorklogs", SecondsToHuman projectWorklogs),
         ("totalWorklogs", SecondsToHuman totalWorklogs)]⟩
    else SecondsToHuman totalWorklogs
  if weekday = 0 ∨ weekday = 1 then
    if projectWorklogs = 0 then ("", points)
    else
      (localizer ⟨"worklogsTranslation", none,
        [("worklogsTime", worklogsTime), ("worklogsEmoji", "")]⟩, points)
  else
    (localizer ⟨"worklogsTranslation", none,
      [("worklogsTime", worklogsTime), ("worklogsEmoji", worklogsEmoji)]⟩, points)

/-- Go `Bot.processWeeklyWorklogs` (botuser/reporting.go:462-505). -/
def processWeeklyWorklogs (localizer : Localizer)
    (totalWorklogs projectWorklogs : Int) : String × Int :=
  let w := Int.tdiv totalWorklogs 3600
  let worklogsEmoji := (weeklyWorklogsBucket w).1
  let points := (weeklyWorklogsBucket w).2
  let worklogsTime :=
    if totalWorklogs ≠ projectWorklogs then
      localizer ⟨"worklogsTime", none,
        [("projectWorklogs", SecondsToHuman projectWorklogs),
         ("totalWorklogs", SecondsToHuman totalWorklogs)]⟩
    else SecondsToHuman totalWorklogs
  (localizer ⟨"worklogsTranslation", none,
    [("worklogsTime", worklogsTime), ("worklogsEmoji", worklogsEmoji)]⟩, points)

/-- Go `Bot.processCommits` (botuser/reporting.go:507-538).  `totalCommits` is
not read by the body. -/
def processCommits (localizer : Localizer) (weekday : Int)
    (totalCommits projectCommits : Int) : String × Int :=
  let c := projectCommits
  let commitsEmoji := (commitsBucket c).1
  let points := (commitsBucket c).2
  if weekday = 0 ∨ weekday = 1 then
    if projectCommits = 0 then ("", points)
    else
      (localizer ⟨"commitsTranslation", none,
        [("projectCommits", toString projectCommits), ("commitsEmoji", "")]⟩, points)
  else
    (localizer ⟨"commitsTranslation", none,
      [("projectCommits", toString projectCommits), ("commitsEmoji", commitsEmoji)]⟩, points)

/-- Go `Reporter.processWorklogs` (reporting/reporting.go:410-466).  The same
switch and weekday gate as the `Bot` method; the message IDs differ, and
`utils.SecondsToHuman`, which is not among the sources, is a parameter. -/
def Reporter.processWorklogs (localizer : Localizer) (secondsToHuman : Int → String)
    (weekday : Int) (totalWorklogs projectWorklogs : Int) : String × Int :=
  let w := Int.tdiv totalWorklogs 3600
  let worklogsEmoji := (worklogsBucket w).1
  let points := (worklogsBucket w).2
  let worklogsTime :=
    if totalWorklogs ≠ projectWorklogs then
      localizer ⟨"WorklogsTimeTranslation", none,
        [("projectWorklogs", secondsToHuman projectWorklogs),
         ("totalWorklogs", secondsToHuman totalWorklogs)]⟩
    else secondsToHuman totalWorklogs
  if weekday = 0 ∨ weekday = 1 then
    if projectWorklogs = 0 then ("", points)
    else
      (localizer ⟨"WorklogsTranslation", none,
        [("worklogsTime", worklogsTime), ("worklogsEmoji", "")]⟩, points)
  else
    (localizer ⟨"WorklogsTranslation", none,
      [("worklogsTime", worklogsTime), ("worklogsEmoji", worklogsEmoji)]⟩, points)

/-- Go `Reporter.processWeeklyWorklogs` (reporting/reporting.go:468-515). -/
def Reporter.processWeeklyWorklogs (localizer : Localizer) (secondsToHuman : Int → String)
    (totalWorklogs projectWorklogs : Int) : String × Int :=
  let w := Int.tdiv totalWorklogs 3600
  let worklogsEmoji := (weeklyWorklogsBucket w).1
  let points := (weeklyWorklogsBucket w).2
  let worklogsTime :=
    if totalWorklogs ≠ projectWorklogs then
      localizer ⟨"WorklogsTimeTranslation", none,
        [("projectWorklogs", secondsToHuman projectWorklogs),
         ("totalWorklogs", secondsToHuman totalWorklogs)]⟩
    else secondsToHuman totalWorklogs
  (localizer ⟨"WorklogsTranslation", none,
    [("worklogsTime", worklogsTime), ("worklogsEmoji", worklogsEmoji)]⟩, points)

/-- Go `Reporter.processCommits` (reporting/reporting.go:517-553). -/
def Reporter.processCommits (localizer : Localizer) (weekday : Int)
    (totalCommits projectCommits : Int) : String × Int :=
  let c := projectCommits
  let commitsEmoji := (commitsBucket c).1
  let points := (commitsBucket c).2
  if weekday = 0 ∨ weekday = 1 then
    if projectCommits = 0 then ("", points)
    else
      (localizer ⟨"CommitsTranslation", none,
        [("projectCommits", toString projectCommits), ("commitsEmoji", "")]⟩, points)
  else
    (localizer ⟨"CommitsTranslation", none,
      [("projectCommits", toString projectCommits), ("commitsEmoji", commitsEmoji)]⟩, points)

/-! ## Example worlds -/

/-- A channel whose only standuper never reports; the tag message is delivered
at the first invocation and fails afterwards. -/
def campaignEnvs (n : Nat) : NotifyEnv :=
  { ListChannelStandupers := fun channelID =>
      .ok [⟨1, "T1", "U1", channelID, "developer", "Ann", "general"⟩]
    submitted := fun _ _ => false
    localizer := fun cfg => cfg.ID
    SendMessage := fun _ _ => decide (n = 0) }

/-- A channel of workspace T1 with the deadline "10:00". -/
def deadlineChannel : Channel := ⟨1, "T1", "general", "C1", "10:00"⟩

/-- A channel of workspace T1 with no deadline. -/
def silentChannel : Channel := ⟨2, "T1", "random", "C2", ""⟩

/-- A world with the two channels above, the warning offset 15 minutes, and a
resolver that places "10:00" at 10:00 UTC of the day that starts at the
instant `dayStart`; the process runs in UTC. -/
def deadlineEnv (dayStart : Int) : SchedulerEnv :=
  { properties := ⟨"T1", 15, 3, 5⟩
    ListChannels := .ok [deadlineChannel, silentChannel]
    Parse := fun text => if text = "10:00" then .found ⟨dayStart + 36000, 0⟩ else .noMatch
    Local := fun _ => 0 }

/-- Saturday 2021-03-13 00:00 UTC. -/
def saturday : Int := 1615593600

/-- Sunday 2021-03-14 00:00 UTC. -/
def sunday : Int := 1615680000

/-- Monday 2021-03-15 00:00 UTC. -/
def monday : Int := 1615766400

/-- Tuesday 2021-03-16 00:00 UTC. -/
def tuesday : Int := 1615852800

/-- The bot before any tick: no thread registered, no call made. -/
def idleBot : BotState := ⟨[], []⟩

/-- A world of the engagement tracker at 2021-03-15 12:00 UTC, process and
member both in UTC, in which the latest standup of every user was created at
2021-02-15 12:00 UTC: the same day of the month, one month earlier. -/
def staleRecordEnv : TrackerEnv :=
  { SelectLatestStandupByUser := fun userID channelID =>
      .ok ⟨1613390400, channelID, userID, "yesterday, today, issue", "1613390400.000100"⟩
    GetUserInfo := fun _ => .ok ⟨"UTC", 0⟩
    Now := 1615809600
    Local := fun _ => 0 }

/-- A world of the engagement tracker at 2021-03-15 10:00 UTC with the process
in UTC and the member in a zone six hours east, in which the latest standup
was created at 2021-03-14 20:00 UTC, which is 2021-03-15 02:00 for the
member. -/
def eastMemberEnv : TrackerEnv :=
  { SelectLatestStandupByUser := fun userID channelID =>
      .ok ⟨1615752000, channelID, userID, "yesterday, today, issue", "1615752000.000100"⟩
    GetUserInfo := fun _ => .ok ⟨"Asia/Bishkek", 21600⟩
    Now := 1615802400
    Local := fun _ => 0 }

/-! ## Report builders: `displayYesterdayTeamReport` and `displayWeeklyTeamReport` -/

/-- Go `CollectorData` (botuser/reporting.go:21-24). -/
structure CollectorData where
  Commits : Int
  Worklogs : Int
deriving DecidableEq

/-- The project record that `bot.db.SelectProject` and the project listings
return.  Its declaration is not among the sources; the fields are the ones
that the code reads. -/
structure Project where
  ID : Int
  WorkspaceID : String
  ChannelName : String
  ChannelID : String
  Deadline : String
  TZ : String
deriving DecidableEq

/-- What the report builders of `botuser/reporting.go` read from outside: the
localizer, `int(time.Now().Weekday())`, the store lookups `SelectProject` and
`GetStandupForPeriod` (for the prior day), the collector endpoint behind
`GetCollectorData`, the submission-day policy `shouldSubmitStandupIn` (for the
prior day; the function is not among the sources), and the formatted dates of
yesterday and of seven days ago.  The member's role is read in
`botuser/reporting.go` as `standuper.Role`; it is the field `RoleInChannel` of
`Standuper`. -/
structure ReportEnv where
  localizer : Localizer
  weekday : Int
  SelectProject : String → Except String Project
  GetStandupForPeriod : String → String → Except String (Option Standup)
  GetCollectorData : String → String → String → String → Except String CollectorData
  shouldSubmitStandupIn : Project → Bool
  dateYesterday : String
  dateWeekAgo : String

/-- Go `Bot.GetCollectorDataOnMember` (botuser/reporting.go:631-652), with the
two dates already formatted.  Every error path returns two zero records and
the error. -/
def GetCollectorDataOnMember (env : ReportEnv) (member : Standuper)
    (dateFrom dateTo : String) : CollectorData × CollectorData × Option String :=
  match env.SelectProject member.ChannelID with
  | .error e => (⟨0, 0⟩, ⟨0, 0⟩, some e)
  | .ok project =>
    match env.GetCollectorData "users" member.UserID dateFrom dateTo with
    | .error e => (⟨0, 0⟩, ⟨0, 0⟩, some e)
    | .ok dataOnUser =>
      let userInProject := member.UserID ++ "/" ++ project.ChannelName
      match env.GetCollectorData "user-in-project" userInProject dateFrom dateTo with
      | .error e => (⟨0, 0⟩, ⟨0, 0⟩, some e)
      | .ok dataOnUserInProject => (dataOnUser, dataOnUserInProject, none)

/-- Go `Bot.processStandup` (botuser/reporting.go:540-590). -/
def processStandup (env : ReportEnv) (member : Standuper) : String × Int :=
  match env.SelectProject member.ChannelID with
  | .error _ => ("", 0)
  | .ok channel =>
    match env.GetStandupForPeriod member.UserID member.ChannelID with
    | .error _ => ("", 0)
    | .ok none =>
      if !env.shouldSubmitStandupIn channel then ("", 0 + 1)
      else (env.localizer ⟨"noStandup", none, []⟩, 0)
    | .ok (some _) => (env.localizer ⟨"hasStandup", none, []⟩, 0 + 1)

/-- What `Reporter.processStandup` reads from outside: the localizer and the
store lookups `MemberShouldBeTracked` and `IsNonReporter` for the prior day. -/
structure ReporterStandupEnv where
  localizer : Localizer
  MemberShouldBeTracked : Int → Bool
  IsNonReporter : String → String → Except String Bool

/-- Go `Reporter.processStandup` (reporting/reporting.go:555-600), for the
member with the given record ID, user and channel. -/
def Reporter.processStandup (env : ReporterStandupEnv) (memberID : Int)
    (userID channelID : String) : String × Int :=
  if !env.MemberShouldBeTracked memberID then ("", 0 + 1)
  else
    match env.IsNonReporter userID channelID with
    | .error _ => ("", 0 + 1)
    | .ok isNonReporter =>
      if isNonReporter = true then (env.localizer ⟨"NoStandup", none, []⟩, 0)
      else (env.localizer ⟨"HasStandup", none, []⟩, 0 + 1)

/-- The local variables of the loop body of a report builder for one
standuper, and the rank key `dataOnUserInProject.Worklogs`. -/
structure MemberScores where
  worklogs : String
  commits : String
  standup : String
  worklogsPoints : Int
  commitsPoints : Int
  standupPoints : Int
  projectWorklogs : Int
deriving DecidableEq

/-- The loop body of `Bot.displayYesterdayTeamReport` up to the call of
`processStandup` (botuser/reporting.go:115-139). -/
def dailyScores (env : ReportEnv) (standuper : Standuper) : MemberScores :=
  let collected := GetCollectorDataOnMember env standuper env.dateYesterday env.dateYesterday
  let dataOnUser := collected.1
  let dataOnUserInProject := collected.2.1
  let collectorError := collected.2.2
  let s0 : MemberScores := ⟨"", "", "", 0, 0, 0, dataOnUserInProject.Worklogs⟩
  let s1 : MemberScores :=
    if collectorError = none then
      { s0 with
        worklogs := (processWorklogs env.localizer env.weekday dataOnUser.Worklogs
          dataOnUserInProject.Worklogs).1
        worklogsPoints := (processWorklogs env.localizer env.weekday dataOnUser.Worklogs
          dataOnUserInProject.Worklogs).2
        commits := (processCommits env.localizer env.weekday dataOnUser.Commits
          dataOnUserInProject.Commits).1
        commitsPoints := (processCommits env.localizer env.weekday dataOnUser.Commits
          dataOnUserInProject.Commits).2 }
    else s0
  let s2 : MemberScores :=
    if standuper.RoleInChannel = "pm" ∨ standuper.RoleInChannel = "designer" then
      { s1 with commits := "", commitsPoints := s1.commitsPoints + 1 }
    else s1
  let s3 : MemberScores :=
    if collectorError ≠ none then
      { s2 with
        worklogs := ""
        worklogsPoints := s2.worklogsPoints + 1
        commits := ""
        commitsPoints := s2.commitsPoints + 1 }
    else s2
  { s3 with
    standup := (processStandup env standuper).1
    standupPoints := (processStandup env standuper).2 }

/-- The total `points` of the daily loop body (botuser/reporting.go:154). -/
def dailyPoints (env : ReportEnv) (standuper : Standuper) : Int :=
  (dailyScores env standuper).worklogsPoints + (dailyScores env standuper).commitsPoints
    + (dailyScores env standuper).standupPoints

/-- The `switch points` of the daily report followed by the weekday override
(botuser/reporting.go:183-194, reporting/reporting.go:219-230).  A value
without a case leaves the zero value of `attachment.Color`. -/
def dailyColor (points weekday : Int) : String :=
  let color :=
    if points = 0 then "danger"
    else if points = 1 ∨ points = 2 then "warning"
    else if points = 3 then "good"
    else ""
  if weekday = 0 ∨ weekday = 1 then "good" else color

/-- The rest of the loop body of `Bot.displayYesterdayTeamReport`
(botuser/reporting.go:141-203): `none` is the `continue` for an entry with
nothing to show, `some item` is the item appended to `attachmentsPull`. -/
def dailyEntry (env : ReportEnv) (channel : Project) (standuper : Standuper) :
    Option AttachmentItem :=
  let s := dailyScores env standuper
  let fieldValue := s.worklogs ++ s.commits ++ s.standup
  if fieldValue = "" then none
  else
    let points := s.worklogsPoints + s.commitsPoints + s.standupPoints
    let text :=
      if points ≥ 3 then
        env.localizer ⟨"notTagStanduper", none,
          [("user", standuper.RealName), ("channel", channel.ChannelName)]⟩
      else
        env.localizer ⟨"tagStanduper", none,
          [("user", standuper.UserID), ("channel", channel.ChannelName)]⟩
    some ⟨⟨text, dailyColor points env.weekday, [⟨fieldValue, false⟩]⟩, s.projectWorklogs⟩

/-- The `for _, standuper := range standupers` loop of the daily report: the
final `attachmentsPull` of one channel. -/
def dailyAttachmentsPull (env : ReportEnv) (channel : Project)
    (standupers : List Standuper) : List AttachmentItem :=
  standupers.filterMap (dailyEntry env channel)

/-- The loop body of `Bot.displayWeeklyTeamReport` up to `fieldValue`
(botuser/reporting.go:282-304).  There is no standup score. -/
def weeklyScores (env : ReportEnv) (standuper : Standuper) : MemberScores :=
  let collected := GetCollectorDataOnMember env standuper env.dateWeekAgo env.dateYesterday
  let dataOnUser := collected.1
  let dataOnUserInProject := collected.2.1
  let collectorError := collected.2.2
  let s0 : MemberScores := ⟨"", "", "", 0, 0, 0, dataOnUserInProject.Worklogs⟩
  let s1 : MemberScores :=
    if collectorError = none then
      { s0 with
        worklogs := (processWeeklyWorklogs env.localizer dataOnUser.Worklogs
          dataOnUserInProject.Worklogs).1
        worklogsPoints := (processWeeklyWorklogs env.localizer dataOnUser.Worklogs
          dataOnUserInProject.Worklogs).2
        commits := (processCommits env.localizer env.weekday dataOnUser.Commits
          dataOnUserInProject.Commits).1
        commitsPoints := (processCommits env.localizer env.weekday dataOnUser.Commits
          dataOnUserInProject.Commits).2 }
    else s0
  let s2 : MemberScores :=
    if standuper.RoleInChannel = "pm" ∨ standuper.RoleInChannel = "designer" then
      { s1 with commits := "", commitsPoints := s1.commitsPoints + 1 }
    else s1
  if collectorError ≠ none then
    { s2 with
      worklogs := ""
      worklogsPoints := s2.worklogsPoints + 1
      commits := ""
      commitsPoints := s2.commitsPoints + 1 }
  else s2

/-- The total `points` of the weekly loop body (botuser/reporting.go:318). -/
def weeklyPoints (env : ReportEnv) (standuper : Standuper) : Int :=
  (weeklyScores env standuper).worklogsPoints + (weeklyScores env standuper).commitsPoints

/-- The `switch points` of the weekly report (botuser/reporting.go:346-353,
reporting/reporting.go:371-378).  No weekday is read. -/
def weeklyColor (points : Int) : String :=
  if points = 0 then "danger"
  else if points = 1 then "warning"
  else if points = 2 then "good"
  else ""

/-- The rest of the loop body of `Bot.displayWeeklyTeamReport`
(botuser/reporting.go:306-362). -/
def weeklyEntry (env : ReportEnv) (channel : Project) (standuper : Standuper) :
    Option AttachmentItem :=
  let s := weeklyScores env standuper
  let fieldValue := s.worklogs ++ s.commits
  if fieldValue = "" then none
  else
    let points := s.worklogsPoints + s.commitsPoints
    let text :=
      if points ≥ 2 then
        env.localizer ⟨"notTagStanduper", none,
          [("user", standuper.RealName), ("channel", channel.ChannelName)]⟩
      else
        env.localizer ⟨"tagStanduper", none,
          [("user", standuper.UserID), ("channel", channel.ChannelName)]⟩
    some ⟨⟨text, weeklyColor points, [⟨fieldValue, false⟩]⟩, s.projectWorklogs⟩

/-- The `for _, standuper := range standupers` loop of the weekly report. -/
def weeklyAttachmentsPull (env : ReportEnv) (channel : Project)
    (standupers : List Standuper) : List AttachmentItem :=
  standupers.filterMap (weeklyEntry env channel)

/-! ## Warning broadcast: `SendWarning` -/

/-- What `SendWarning` reads from outside: the store lookup
`bot.db.ListStandupers`, the engagement tracker, the localizer, the setting
`bot.properties.ReminderTime`, and whether its `bot.SendMessage` call
succeeds. -/
structure WarningEnv where
  ListStandupers : Except String (List Standuper)
  submitted : String → String → Bool
  localizer : Localizer
  ReminderTime : Int
  SendMessage : String → String → Bool

/-- The outcome of `SendWarning`: the returned error and the `SendMessage`
calls made. -/
structure WarningResult where
  err : Option String
  sent : List SentMessage
deriving DecidableEq

/-- The text that `SendWarning` sends for the mentions `nonReportersIDs`
(botuser/notifications.go:107-129). -/
def warningText (env : WarningEnv) (nonReportersIDs : List String) : String :=
  let minutes := env.localizer
    ⟨"minutes", some env.ReminderTime, [("time", toString env.ReminderTime)]⟩
  env.localizer ⟨"warnNonReporters", some (nonReportersIDs.length : Int),
    [("user", nonReportersIDs.headD ""), ("users", ", ".intercalate nonReportersIDs),
     ("minutes", minutes)]⟩

/-- Go `Bot.SendWarning(channelID)` (botuser/notifications.go:86-138). -/
def SendWarning (env : WarningEnv) (channelID : String) : WarningResult :=
  match env.ListStandupers with
  | .error e => ⟨some e, []⟩
  | .ok standupers =>
    if standupers.length = 0 then ⟨none, []⟩
    else
      let nonReportersIDs :=
        (standupers.filter (fun standuper =>
          decide (standuper.ChannelID = channelID)
            && !env.submitted standuper.UserID standuper.ChannelID
            && decide (standuper.RoleInChannel ≠ "pm"))).map
          (fun standuper => "<@" ++ standuper.UserID ++ ">")
      if nonReportersIDs.length = 0 then ⟨none, []⟩
      else
        let warnNonReporters := warningText env nonReportersIDs
        ⟨none, [⟨channelID, warnNonReporters, env.SendMessage channelID warnNonReporters⟩]⟩

/-- The standupers that a warning for `channelID` is about, in the words of
the specification: those in the store with a role other than pm that belong
to the channel and have not reported today, in store order (none when the
store lookup fails). -/
def missingStandupers (env : WarningEnv) (channelID : String) : List Standuper :=
  match env.ListStandupers with
  | .error _ => []
  | .ok standupers =>
    standupers.filter (fun standuper =>
      decide (standuper.RoleInChannel ≠ "pm") && decide (standuper.ChannelID = channelID)
        && !env.submitted standuper.UserID standuper.ChannelID)

/-! ## Report triggers: `CallDisplayYesterdayTeamReport`, `CallDisplayWeeklyTeamReport` -/

/-- What the report triggers of `botuser/reporting.go` read from outside: the
setting `bot.workspace.ReportingTime`, the instant `time.Now()`, the
time-expression resolver applied at that instant, and the error that each
report builder returns when it is fired. -/
structure TriggerEnv where
  ReportingTime : String
  Now : Time
  Parse : String → ParseResult
  displayYesterdayTeamReport : Option String
  displayWeeklyTeamReport : Option String

/-- How a report trigger ends: it returns an error value (`none` is nil),
having fired the report builder or not, or it panics on a nil pointer. -/
inductive TriggerOutcome where
  | returned (err : Option String) (fired : Bool)
  | panicked
deriving DecidableEq

/-- Go `Bot.CallDisplayYesterdayTeamReport` (botuser/reporting.go:33-54).  After
the error check the result `r` is dereferenced as `r.Time` without a nil
check; `ParseResult.noMatch` is the nil result. -/
def CallDisplayYesterdayTeamReport (env : TriggerEnv) : TriggerOutcome :=
  if env.ReportingTime = "" then .returned none false
  else
    match env.Parse env.ReportingTime with
    | .error e => .returned (some e) false
    | .noMatch => .panicked
    | .found rTime =>
      if env.Now.Hour ≠ rTime.Hour ∨ env.Now.Minute ≠ rTime.Minute then .returned none false
      else .returned env.displayYesterdayTeamReport true

/-- Go `Bot.CallDisplayWeeklyTeamReport` (botuser/reporting.go:57-78).  The
error of the resolver is assigned and never read; `r.Time` is dereferenced
at once.  The resolver returns a nil result together with an error, so both
`ParseResult.error` and `ParseResult.noMatch` are a nil `r`. -/
def CallDisplayWeeklyTeamReport (env : TriggerEnv) : TriggerOutcome :=
  if env.Now.Weekday ≠ 0 then .returned none false
  else if env.ReportingTime = "" then .returned none false
  else
    match env.Parse env.ReportingTime with
    | .error _ => .panicked
    | .noMatch => .panicked
    | .found rTime =>
      if env.Now.Hour ≠ rTime.Hour ∨ env.Now.Minute ≠ rTime.Minute then .returned none false
      else .returned env.displayWeeklyTeamReport true

/-! ## Example worlds of the report builders -/

/-- A member of channel C1 with the given role. -/
def memberWithRole (role : String) : Standuper :=
  ⟨1, "T1", "U1", "C1", role, "Ann", "general"⟩

/-- The project of channel C1. -/
def generalProject : Project := ⟨1, "T1", "general", "C1", "10:00", "UTC"⟩

/-- A world of the report builders on the given weekday in which the collector
answers every request with the given worklog seconds and commit count, or
fails on every request; the prior day is a submission day and the member's
standup of the prior day is on record.  The localizer returns the message
ID. -/
def reportEnv (weekday worklogs commits : Int) (collectorFails : Bool) : ReportEnv :=
  { localizer := fun cfg => cfg.ID
    weekday := weekday
    SelectProject := fun _ => .ok generalProject
    GetStandupForPeriod := fun userID channelID =>
      .ok (some ⟨1615716000, channelID, userID, "yesterday, today, issue", "1615716000.000100"⟩)
    GetCollectorData := fun _ _ _ _ =>
      if collectorFails then .error "failed to get collector data. 500"
      else .ok ⟨commits, worklogs⟩
    shouldSubmitStandupIn := fun _ => true
    dateYesterday := "2021-03-14"
    dateWeekAgo := "2021-03-08" }

/-- The world `reportEnv` on a Wednesday with a store whose standup lookup
fails. -/
def standupLookupFailsEnv : ReportEnv :=
  { reportEnv 3 30000 5 false with
    GetStandupForPeriod := fun _ _ => .error "sql: connection refused" }

/-- The world `reportEnv` on a Wednesday with no standup on record for the
prior day, which is a submission day or not as given. -/
def noStandupEnv (submissionDay : Bool) : ReportEnv :=
  { reportEnv 3 30000 5 false with
    GetStandupForPeriod := fun _ _ => .ok none
    shouldSubmitStandupIn := fun _ => submissionDay }

/-- A world of `Reporter.processStandup` in which the member is tracked and
the non-reporter lookup fails. -/
def reporterLookupFailsEnv : ReporterStandupEnv :=
  { localizer := fun cfg => cfg.ID
    MemberShouldBeTracked := fun _ => true
    IsNonReporter := fun _ _ => .error "sql: connection refused" }

/-- A store with a developer who has not reported, a pm who has not reported,
a developer who has reported, all of channel C1, and a developer of channel
C2 who has not reported; the warning message fails to send. -/
def warningEnv : WarningEnv :=
  { ListStandupers := .ok
      [⟨1, "T1", "U1", "C1", "developer", "Ann", "general"⟩,
       ⟨2, "T1", "U2", "C1", "pm", "Bob", "general"⟩,
       ⟨3, "T1", "U3", "C1", "developer", "Cid", "general"⟩,
       ⟨4, "T1", "U4", "C2", "developer", "Dee", "random"⟩,
       ⟨5, "T1", "U5", "C1", "designer", "Eve", "general"⟩]
    submitted := fun userID _ => decide (userID = "U3")
    localizer := fun cfg =>
      cfg.ID ++ ":" ++ (match cfg.TemplateData.lookup "users" with
        | some users => users
        | none => "")
    ReminderTime := 15
    SendMessage := fun _ _ => false }

/-- A report trigger on Sunday 2021-03-14 at 10:00 UTC whose reporting time is
an expression that the resolver does not match. -/
def unmatchedTriggerEnv : TriggerEnv :=
  { ReportingTime := "whenever"
    Now := ⟨sunday + 36000, 0⟩
    Parse := fun _ => .noMatch
    displayYesterdayTeamReport := none
    displayWeeklyTeamReport := none }

/-- A report trigger on Sunday 2021-03-14 at 10:00 UTC whose reporting time
makes the resolver return an error. -/
def failingTriggerEnv : TriggerEnv :=
  { ReportingTime := "25:99"
    Now := ⟨sunday + 36000, 0⟩
    Parse := fun _ => .error "unable to parse"
    displayYesterdayTeamReport := none
    displayWeeklyTeamReport := none }

/-- The world `reportEnv` on a Wednesday with a store whose project lookup
fails (so the collector data cannot be fetched either). -/
def projectLookupFailsEnv : ReportEnv :=
  { reportEnv 3 30000 5 false with
    SelectProject := fun _ => .error "sql: connection refused" }

/-- The daily entry of a developer with 30000 worklog seconds, 5 commits and a
standup on record, computed on a Wednesday: three points. -/
def fullScoreDailyItem : AttachmentItem :=
  ⟨⟨"notTagStanduper", "good",
    [⟨"worklogsTranslationcommitsTranslationhasStandup", false⟩]⟩, 30000⟩

/-- The weekly entry of the same developer, computed on a Wednesday: no
worklog point for 8 hours, one commit point. -/
def onePointWeeklyItem : AttachmentItem :=
  ⟨⟨"tagStanduper", "warning", [⟨"worklogsTranslationcommitsTranslation", false⟩]⟩, 30000⟩

/-- The world `reportEnv` with a successful collector and a localizer that
shows the message ID followed by the value of `commitsEmoji`. -/
def emojiReportEnv (weekday worklogs commits : Int) : ReportEnv :=
  { reportEnv weekday worklogs commits false with
    localizer := fun cfg =>
      cfg.ID ++ ":" ++ (match cfg.TemplateData.lookup "commitsEmoji" with
        | some emoji => emoji
        | none => "") }

/-- A channel of another workspace with the deadline "10:00". -/
def foreignChannel : Channel := ⟨3, "T2", "elsewhere", "C3", "10:00"⟩

/-- A channel of workspace T1 whose deadline text the resolver does not
match. -/
def unresolvedChannel : Channel := ⟨4, "T1", "later", "C4", "soon"⟩

/-! ## Notifier registry: `FindNotifierThread`, `DeleteNotifierThreadFromList` -/

/-- Go `Bot.FindNotifierThread` (botuser/notifications.go:244-251), on the
list `bot.notifierThreads`.  The thread returned with `false` is the zero
value `&NotifierThread{}`. -/
def FindNotifierThread : List NotifierThread → Channel → NotifierThread × Bool
  | [], _ => (⟨⟨0, "", "", "", ""⟩⟩, false)
  | nt :: rest, channel =>
    if nt.channel.ID = channel.ID then (nt, true) else FindNotifierThread rest channel

/-- The state of the loop of `DeleteNotifierThreadFromList`: the array under
`bot.notifierThreads` (the `range` clause reads its elements by index, and
`append` writes into it), the current `len(bot.notifierThreads)`, and
`position`. -/
structure DeleteState where
  backing : List NotifierThread
  len : Nat
  position : Nat
deriving DecidableEq

/-- One iteration of the loop of `DeleteNotifierThreadFromList`
(botuser/notifications.go:256-267) for the range index `i`; `none` is a
panic.  `nt` is the element of the array at index `i`.  The slice
expression `bot.notifierThreads[position+1:]` is in range only if
`position + 1 <= len(bot.notifierThreads)`.  `l1` has the capacity of the
whole array, so `append(l1, l2...)` copies `l2` into the array behind `l1`
and leaves the elements behind the result as they are. -/
def deleteStep (channel : Channel) (s : DeleteState) (i : Nat) : Option DeleteState :=
  match s.backing[i]? with
  | none => none
  | some nt =>
    if nt.channel.ID = channel.ID then
      if s.position + 1 ≤ s.len then
        let l1 := s.backing.take s.position
        let l2 := (s.backing.take s.len).drop (s.position + 1)
        let result := l1 ++ l2
        let position := if s.position > 0 then s.position - 1 else s.position
        some ⟨result ++ s.backing.drop result.length, result.length, position + 1⟩
      else none
    else some { s with position := s.position + 1 }

/-- The `for _, nt := range bot.notifierThreads` loop: the range expression is
evaluated once, so the index `i` runs over the original length; the first
argument is the number of iterations that are left. -/
def deleteLoop (channel : Channel) : Nat → Nat → DeleteState → Option DeleteState
  | 0, _, s => some s
  | k + 1, i, s =>
    match deleteStep channel s i with
    | none => none
    | some s1 => deleteLoop channel k (i + 1) s1

/-- Go `Bot.DeleteNotifierThreadFromList` (botuser/notifications.go:254-268): the
value of `bot.notifierThreads` after the call, or `none` if the call
panics. -/
def DeleteNotifierThreadFromList (notifierThreads : List NotifierThread)
    (channel : Channel) : Option (List NotifierThread) :=
  (deleteLoop channel notifierThreads.length 0 ⟨notifierThreads, notifierThreads.length, 0⟩).map
    (fun s => s.backing.take s.len)

/-- The thread of the channel with the given record ID and channel ID. -/
def threadOf (id : Int) (channelID : String) : NotifierThread :=
  ⟨⟨id, "T1", "general", channelID, "10:00"⟩⟩

/-! ## Settings validation: `BotSettings.Validate` -/

/-- Go `model.BotSettings` (model/model.go:63-76). -/
structure BotSettings where
  ID : Int
  UserID : String
  NotifierInterval : Int
  Language : String
  ReminderRepeatsMax : Int
  ReminderTime : Int
  AccessToken : String
  TeamID : String
  TeamName : String
  ReportingChannel : String
  ReportingTime : String
  IndividualReportsOn : Bool
deriving DecidableEq

/-- Go `BotSettings.Validate` (model/model.go:136-173); `none` is a nil error. -/
def BotSettings.Validate (bs : BotSettings) : Option String :=
  if bs.TeamID = "" then some "team ID cannot be empty"
  else if bs.TeamName = "" then some "team name cannot be empty"
  else if bs.AccessToken = "" then some "accessToken cannot be empty"
  else if bs.ReminderTime ≤ 0 then some "reminder time cannot be zero or negative"
  else if bs.ReminderRepeatsMax ≤ 0 then
    some "reminder repeats max cannot be zero or negative"
  else if bs.ReportingTime = "" then some "reporting time cannot be empty"
  else if bs.Language = "" then some "language cannot be empty"
  else none

/-- The checks of the settings in the order in which the specification lists
them, each with whether it fails and the error it reports. -/
def validationChecks (bs : BotSettings) : List (Bool × String) :=
  [(decide (bs.TeamID = ""), "team ID cannot be empty"),
   (decide (bs.TeamName = ""), "team name cannot be empty"),
   (decide (bs.AccessToken = ""), "accessToken cannot be empty"),
   (decide (bs.ReminderTime ≤ 0), "reminder time cannot be zero or negative"),
   (decide (bs.ReminderRepeatsMax ≤ 0), "reminder repeats max cannot be zero or negative"),
   (decide (bs.ReportingTime = ""), "reporting time cannot be empty"),
   (decide (bs.Language = ""), "language cannot be empty")]

/-- Settings that pass every check. -/
def validSettings : BotSettings :=
  ⟨1, "U0", 5, "en", 3, 15, "xoxb-1", "T1", "team", "C9", "10:00", true⟩

/-! ## Report time of the `Reporter`: `formatTime` -/

/-- Go `strings.Split(s, sep)` for a separator of one character, on the
characters of the string. -/
def splitChars (sep : Char) : List Char → List (List Char)
  | [] => [[]]
  | c :: cs =>
    if c = sep then [] :: splitChars sep cs
    else
      match splitChars sep cs with
      | [] => [[c]]
      | part :: parts => (c :: part) :: parts

/-- Go `strings.Split(s, ":")`. -/
def splitColon (s : String) : List String :=
  (splitChars ':' s.data).map String.mk

/-- Go `strconv.Atoi`: the value and the error (`none` is nil).  The input is
an optional sign followed by one or more decimal digits; a value outside the
`int` range is an error and is returned clamped. -/
def Atoi (s : String) : Int × Option String :=
  let digits : List Char :=
    match s.data with
    | [] => []
    | c :: rest => if c = '-' ∨ c = '+' then rest else c :: rest
  if digits = [] ∨ digits.all Char.isDigit = false then (0, some "invalid syntax")
  else
    let n : Int := digits.foldl (fun acc ch => acc * 10 + ((ch.toNat : Int) - 48)) 0
    let v : Int := if s.data.head? = some '-' then -n else n
    if v > 2 ^ 63 - 1 then (2 ^ 63 - 1, some "value out of range")
    else if v < -2 ^ 63 then (-2 ^ 63, some "value out of range")
    else (v, none)

/-- Go `formatTime` (reporting/reporting.go:664-686): the named results `hour`,
`min` and `err` at the return. -/
def formatTime (t : String) : Int × Int × Option String :=
  let er := "time format error"
  match splitColon t with
  | [first, second] =>
    let hour := (Atoi first).1
    if (Atoi first).2 ≠ none then (hour, 0, (Atoi first).2)
    else
      let min := (Atoi second).1
      if (Atoi second).2 ≠ none then (hour, min, (Atoi second).2)
      else if hour < 0 ∨ hour > 23 ∨ min < 0 ∨ min > 59 then (hour, min, some er)
      else (hour, min, none)
  | _ => (0, 0, some er)

/-! ## Standup analysis: `analizeStandup` -/

/-- Go `problemKeys` (botuser/botuser.go:23). -/
def problemKeys : List String := ["issue", "мешает"]

/-- Go `todayPlansKeys` (botuser/botuser.go:24). -/
def todayPlansKeys : List String := ["today", "сегодня"]

/-- Go `yesterdayWorkKeys` (botuser/botuser.go:25). -/
def yesterdayWorkKeys : List String := ["yesterday", "friday", "вчера", "пятниц"]

/-- Whether the characters `key` stand at the head of `s`. -/
def startsWithChars : List Char → List Char → Bool
  | _, [] => true
  | [], _ :: _ => false
  | c :: s, k :: key => decide (c = k) && startsWithChars s key

/-- Whether the characters `key` occur in `s` as a contiguous run. -/
def containsChars : List Char → List Char → Bool
  | [], key => key.isEmpty
  | c :: s, key => startsWithChars (c :: s) key || containsChars s key

/-- Go `strings.Contains(s, substr)`. -/
def Contains (s substr : String) : Bool := containsChars s.data substr.data

/-- The loop `for _, key := range keys { if strings.Contains(message, key) {
flag = true } }` of `analizeStandup`. -/
def mentionsAny (message : String) (keys : List String) : Bool :=
  keys.foldl (fun flag key => if Contains message key then true else flag) false

/-- The warning that `analizeStandup` adds for a group of keywords. -/
def keywordWarning (localizer : Localizer) (id : String) (keys : List String) : String :=
  localizer ⟨id, none, [("Keywords", ", ".intercalate keys)]⟩

/-- Go `Bot.analizeStandup` (botuser/botuser.go:274-344).  `ToLower` is
`strings.ToLower`. -/
def analizeStandup (localizer : Localizer) (ToLower : String → String)
    (message : String) : String :=
  let message := ToLower message
  let mentionsYesterdayWork := mentionsAny message yesterdayWorkKeys
  let mentionsTodayPlans := mentionsAny message todayPlansKeys
  let mentionsProblem := mentionsAny message problemKeys
  let errors : List String := []
  let errors :=
    if !mentionsYesterdayWork then
      errors ++ [keywordWarning localizer "noYesterdayMention" yesterdayWorkKeys]
    else errors
  let errors :=
    if !mentionsTodayPlans then
      errors ++ [keywordWarning localizer "noTodayMention" todayPlansKeys]
    else errors
  let errors :=
    if !mentionsProblem then
      errors ++ [keywordWarning localizer "noProblemsMention" problemKeys]
    else errors
  ", ".intercalate errors

/-- A lower-casing of the ASCII letters, for examples. -/
def asciiLower (s : String) : String := String.mk (s.data.map Char.toLower)

/-! ## Further worlds: failing store, sent warnings -/

/-- The channel of `campaignEnvs`, whose only standuper never reports, with a
store whose lookup fails at the first invocation and answers from then on. -/
def flakyCampaignEnvs (n : Nat) : NotifyEnv :=
  { campaignEnvs n with
    ListChannelStandupers := fun channelID =>
      if n = 0 then .error "sql: connection refused"
      else (campaignEnvs n).ListChannelStandupers channelID }

/-- The channel of `campaignEnvs` with a store whose lookup fails at every
invocation. -/
def deadStoreEnvs (n : Nat) : NotifyEnv :=
  { campaignEnvs n with
    ListChannelStandupers := fun _ => .error "sql: connection refused" }

/-- The `SendMessage` calls that the `SendWarning` calls of a trace make, in
order, when `SendWarning` runs in the world `wenv`.  (The start of a notifier
only launches the campaign.) -/
def warningsSent (wenv : WarningEnv) : List Action → List SentMessage
  | [] => []
  | Action.SendWarning channelID :: rest =>
    (SendWarning wenv channelID).sent ++ warningsSent wenv rest
  | Action.SendChannelNotification _ :: rest => warningsSent wenv rest

/-- The store of `warningEnv` at a moment when every standuper has
reported. -/
def allReportedEnv : WarningEnv :=
  { warningEnv with submitted := fun _ _ => true }

/-! # Theorems -/

/-! ## Ranking: auxiliary facts -/

theorem bubble_zero (l : List AttachmentItem) : bubble 0 l = l := by
  cases l <;> simp [bubble]

theorem bubbleSwapped_zero (l : List AttachmentItem) : bubbleSwapped 0 l = false := by
  cases l <;> simp [bubbleSwapped]

theorem sweepLoop_append (k : Nat) :
    ∀ (pre l : List AttachmentItem) (d : Bool), (k < l.length ∨ k = 0) →
      sweepLoop k (pre ++ l) pre.length d = some (pre ++ bubble k l, d || bubbleSwapped k l) := by
  induction k with
  | zero =>
    intro pre l d _
    simp [sweepLoop, bubble_zero, bubbleSwapped_zero]
  | succ k ih =>
    intro pre l d h
    have hk : k + 1 < l.length := by
      rcases h with h | h
      · exact h
      · omega
    match l, hk with
    | a :: b :: rest, hk =>
      have hk2 : k < (a :: rest).length ∨ k = 0 := by
        left; simp at hk ⊢; omega
      have key := ih (pre ++ [b]) (a :: rest) true hk2
      have key2 := ih (pre ++ [a]) (b :: rest) d (by left; simp at hk ⊢; omega)
      simp only [List.length_append, List.length_singleton, List.append_assoc,
        List.singleton_append] at key key2
      have h1 : (pre ++ a :: b :: rest)[pre.length]? = some a := by
        rw [List.getElem?_append_right (by omega)]; simp
      have h2 : (pre ++ a :: b :: rest)[pre.length + 1]? = some b := by
        rw [List.getElem?_append_right (by omega)]; simp
      have h3 : ((pre ++ a :: b :: rest).set pre.length b).set (pre.length + 1) a
          = pre ++ b :: a :: rest := by
        rw [List.set_append_right _ _ (by omega)]
        rw [List.set_append_right _ _ (by omega)]
        simp
      rw [sweepLoop]
      simp only [h1, h2, h3]
      by_cases hlt : a.Points < b.Points
      · simp [bubble, bubbleSwapped, hlt, key]
      · simp [bubble, bubbleSwapped, hlt, key2]

theorem sweep_eq (entries : List AttachmentItem) (p : Nat) :
    sweep entries p = some (bubble (entries.length - p - 1) entries,
      bubbleSwapped (entries.length - p - 1) entries) := by
  have h := sweepLoop_append (entries.length - p - 1) [] entries false (by
    cases entries with
    | nil => right; simp
    | cons a t => left; simp; omega)
  simpa [sweep] using h


theorem bubble_perm (k : Nat) : ∀ l : List AttachmentItem, (bubble k l).Perm l := by
  induction k with
  | zero => intro l; rw [bubble_zero]
  | succ k ih =>
    intro l
    match l with
    | [] => simp [bubble]
    | [a] => simp [bubble]
    | a :: b :: rest =>
      by_cases hlt : a.Points < b.Points
      · simp only [bubble, hlt, if_true]
        exact ((ih (a :: rest)).cons b).trans (List.Perm.swap a b rest)
      · simp only [bubble, hlt, if_false]
        exact (ih (b :: rest)).cons a

theorem bubble_filter (c : Int) (k : Nat) : ∀ l : List AttachmentItem,
    (bubble k l).filter (fun e => decide (e.Points = c))
      = l.filter (fun e => decide (e.Points = c)) := by
  induction k with
  | zero => intro l; rw [bubble_zero]
  | succ k ih =>
    intro l
    match l with
    | [] => simp [bubble]
    | [a] => simp [bubble]
    | a :: b :: rest =>
      by_cases hlt : a.Points < b.Points
      · simp only [bubble, hlt, if_true]
        have h := ih (a :: rest)
        by_cases ha : a.Points = c <;> by_cases hb : b.Points = c
        · omega
        · simp only [List.filter_cons, ha, hb, decide_True, decide_False, if_true] at h ⊢
          simpa using h
        · simp only [List.filter_cons, ha, hb, decide_True, decide_False, if_true] at h ⊢
          simpa using h
        · simp only [List.filter_cons, ha, hb, decide_True, decide_False, if_true] at h ⊢
          simpa using h
      · simp only [bubble, hlt, if_false]
        have h := ih (b :: rest)
        rw [List.filter_cons, h]
        conv_rhs => rw [List.filter_cons]

theorem bubble_shape (k : Nat) : ∀ l : List AttachmentItem, k < l.length →
    ∃ init m, bubble k l = init ++ m :: l.drop (k + 1) ∧
      (init ++ [m]).Perm (l.take (k + 1)) ∧
      ∀ x ∈ l.take (k + 1), rankedBefore x m := by
  induction k with
  | zero =>
    intro l hl
    match l, hl with
    | a :: rest, _ =>
      refine ⟨[], a, by simp [bubble_zero], by simp, ?_⟩
      intro x hx
      simp at hx
      subst hx
      exact le_refl _
  | succ k ih =>
    intro l hl
    match l, hl with
    | a :: b :: rest, hl =>
      by_cases hlt : a.Points < b.Points
      · obtain ⟨init, m, he, hp, hm⟩ := ih (a :: rest) (by simp at hl ⊢; omega)
        refine ⟨b :: init, m, ?_, ?_, ?_⟩
        · simp only [bubble, hlt, if_true, he]; simp
        · have h1 : (b :: (init ++ [m])).Perm (b :: (a :: rest).take (k + 1)) := hp.cons b
          simp only [List.take_succ_cons] at h1 ⊢
          exact h1.trans (List.Perm.swap a b _)
        · intro x hx
          have hma : rankedBefore a m := hm a (by simp)
          simp only [List.take_succ_cons, List.mem_cons] at hx
          rcases hx with hx | hx | hx
          · subst hx; exact hma
          · subst hx; unfold rankedBefore at hma ⊢; omega
          · exact hm x (by simp only [List.take_succ_cons, List.mem_cons]; right; exact hx)
      · obtain ⟨init, m, he, hp, hm⟩ := ih (b :: rest) (by simp at hl ⊢; omega)
        refine ⟨a :: init, m, ?_, ?_, ?_⟩
        · simp only [bubble, hlt, if_false, he]; simp
        · have h1 : (a :: (init ++ [m])).Perm (a :: (b :: rest).take (k + 1)) := hp.cons a
          simpa using h1
        · intro x hx
          have hmb : rankedBefore b m := hm b (by simp)
          simp only [List.take_succ_cons, List.mem_cons] at hx
          rcases hx with hx | hx | hx
          · subst hx; unfold rankedBefore at hmb ⊢; omega
          · subst hx; exact hmb
          · exact hm x (by simp only [List.take_succ_cons, List.mem_cons]; right; exact hx)

theorem bubble_noswap (k : Nat) : ∀ l : List AttachmentItem,
    bubbleSwapped k l = false →
      bubble k l = l ∧ List.Pairwise rankedBefore (l.take (k + 1)) := by
  induction k with
  | zero =>
    intro l _
    refine ⟨bubble_zero l, ?_⟩
    cases l <;> simp
  | succ k ih =>
    intro l h
    match l, h with
    | [], _ => simp [bubble]
    | [a], _ => simp [bubble]
    | a :: b :: rest, h =>
      by_cases hlt : a.Points < b.Points
      · simp [bubbleSwapped, hlt] at h
      · simp only [bubbleSwapped, hlt, if_false] at h
        obtain ⟨he, hp⟩ := ih (b :: rest) h
        refine ⟨by simp only [bubble, hlt, if_false, he], ?_⟩
        simp only [List.take_succ_cons] at hp ⊢
        refine List.Pairwise.cons ?_ hp
        intro x hx
        simp only [List.mem_cons] at hx
        rcases hx with hx | hx
        · subst hx; unfold rankedBefore; omega
        · have hbx : rankedBefore b x := (List.pairwise_cons.mp hp).1 x hx
          unfold rankedBefore at hbx ⊢; omega


theorem sortLoop_spec (k : Nat) : ∀ (es : List AttachmentItem) (i : Nat),
    k + i = es.length →
    List.Pairwise rankedBefore (es.drop k) →
    (∀ x ∈ es.take k, ∀ y ∈ es.drop k, rankedBefore x y) →
    ∃ out, sortLoop k es i = some out ∧ List.Pairwise rankedBefore out ∧ out.Perm es ∧
      ∀ c : Int, out.filter (fun e => decide (e.Points = c))
        = es.filter (fun e => decide (e.Points = c)) := by
  induction k with
  | zero =>
    intro es i _ hs _
    exact ⟨es, rfl, by simpa using hs, List.Perm.refl _, fun _ => rfl⟩
  | succ k ih =>
    intro es i hlen hs hcross
    have hk : es.length - i - 1 = k := by omega
    have hsw : sweep es i = some (bubble k es, bubbleSwapped k es) := by
      rw [sweep_eq, hk]
    by_cases hd : bubbleSwapped k es = false
    · obtain ⟨he, hp⟩ := bubble_noswap k es hd
      refine ⟨es, ?_, ?_, List.Perm.refl _, fun _ => rfl⟩
      · simp [sortLoop, hsw, hd, he]
      · have hall : List.Pairwise rankedBefore (es.take (k + 1) ++ es.drop (k + 1)) :=
          List.pairwise_append.mpr ⟨hp, hs, hcross⟩
        simpa using hall
    · have hd1 : bubbleSwapped k es = true := by simpa using hd
      obtain ⟨init, m, he, hp, hm⟩ := bubble_shape k es (by omega)
      have hinit : init.length = k := by
        have h := hp.length_eq
        simp at h
        omega
      have hmem : ∀ x, x ∈ init ++ [m] → x ∈ es.take (k + 1) := fun x hx => hp.subset hx
      have hdrop : (bubble k es).drop k = m :: es.drop (k + 1) := by
        rw [he, List.drop_append_of_le_length (by omega), ← hinit]; simp
      have htake : (bubble k es).take k = init := by
        rw [he, List.take_append_of_le_length (by omega), ← hinit]; simp
      have hlen1 : k + (i + 1) = (bubble k es).length := by
        rw [(bubble_perm k es).length_eq]; omega
      obtain ⟨out, ho, hsorted, hperm, hfilter⟩ := ih (bubble k es) (i + 1) hlen1
        (by
          rw [hdrop]
          exact List.Pairwise.cons (fun y hy => hcross m (hmem m (by simp)) y hy) hs)
        (by
          rw [hdrop, htake]
          intro x hx y hy
          have hx1 : x ∈ es.take (k + 1) := hmem x (by simp [hx])
          simp only [List.mem_cons] at hy
          rcases hy with hy | hy
          · subst hy; exact hm x hx1
          · exact hcross x hx1 y hy)
      refine ⟨out, ?_, hsorted, hperm.trans (bubble_perm k es), ?_⟩
      · simp [sortLoop, hsw, hd1, ho]
      · intro c
        rw [hfilter c, bubble_filter]

theorem sortedEntries_spec (entries : List AttachmentItem) :
    ∃ out, sortedEntries entries = some out ∧ List.Pairwise rankedBefore out ∧
      out.Perm entries ∧
      ∀ c : Int, out.filter (fun e => decide (e.Points = c))
        = entries.filter (fun e => decide (e.Points = c)) := by
  unfold sortedEntries
  exact sortLoop_spec entries.length entries 0 rfl (by simp) (by simp)

/-! ## Ranking: the claims -/

/-- C1: for every list of entries, `sortReportEntries` finishes (no index is out
of range) and returns the attachments of the entries in non-increasing order
of their Points: every adjacent pair of the sorted entries, and indeed every
pair, has the Points of the earlier entry at least the Points of the later
one.  The model stands for both `Bot.sortReportEntries` and
`Reporter.sortReportEntries`, whose bodies are the same. -/
theorem sortReportEntries_descending (entries : List AttachmentItem) :
    ∃ out, sortedEntries entries = some out ∧
      sortReportEntries entries = some (out.map (fun item => item.SlackAttachment)) ∧
      List.Chain' rankedBefore out ∧ List.Pairwise rankedBefore out := by
  obtain ⟨out, ho, hs, _, _⟩ := sortedEntries_spec entries
  refine ⟨out, ho, by simp [sortReportEntries, ho], ?_, hs⟩
  exact List.Pairwise.chain' hs

/-- C2: `sortReportEntries` is stable: for every input list and every key `c`,
the entries with Points `c` occur in the output in the same order as in the
input; and the entries with points 50, 200, 200, 10 (texts a, b, c, d) are
returned as b, c, a, d, the first 200 before the second. -/
theorem sortReportEntries_stable (entries : List AttachmentItem) :
    (∃ out, sortedEntries entries = some out ∧
      sortReportEntries entries = some (out.map (fun item => item.SlackAttachment)) ∧
      ∀ c : Int, out.filter (fun e => decide (e.Points = c))
        = entries.filter (fun e => decide (e.Points = c))) ∧
    sortedEntries [mkItem "a" 50, mkItem "b" 200, mkItem "c" 200, mkItem "d" 10]
      = some [mkItem "b" 200, mkItem "c" 200, mkItem "a" 50, mkItem "d" 10] ∧
    sortReportEntries [mkItem "a" 50, mkItem "b" 200, mkItem "c" 200, mkItem "d" 10]
      = some [(mkItem "b" 200).SlackAttachment, (mkItem "c" 200).SlackAttachment,
          (mkItem "a" 50).SlackAttachment, (mkItem "d" 10).SlackAttachment] := by
  refine ⟨?_, by decide, by decide⟩
  obtain ⟨out, ho, _, _, hf⟩ := sortedEntries_spec entries
  exact ⟨out, ho, by simp [sortReportEntries, ho], hf⟩

/-! ## Retry-bounded notifier -/

theorem notifyNotAll_stop (env : NotifyEnv) (ReminderRepeatsMax : Int) (channelID : String)
    (repeats : Int) (h : ReminderRepeatsMax ≤ repeats) :
    notifyNotAll env ReminderRepeatsMax channelID repeats = ⟨none, repeats, []⟩ := by
  simp [notifyNotAll, h]

theorem notifyNotAll_continue (env : NotifyEnv) (ReminderRepeatsMax : Int)
    (channelID : String) (repeats : Int) (h : repeats < ReminderRepeatsMax)
    (hnon : ∃ standupers, env.ListChannelStandupers channelID = .ok standupers ∧
      ∃ s ∈ standupers, env.submitted s.UserID s.ChannelID = false ∧ s.RoleInChannel ≠ "pm") :
    ∃ text, notifyNotAll env ReminderRepeatsMax channelID repeats
      = ⟨some "Continue backoff", repeats + 1,
          [⟨channelID, text, env.SendMessage channelID text⟩]⟩ := by
  obtain ⟨standupers, hl, s, hs, hsub, hrole⟩ := hnon
  have h1 : ¬ (repeats ≥ ReminderRepeatsMax) := by omega
  have h2 : standupers.length ≠ 0 := by
    intro h0
    rw [List.length_eq_zero] at h0
    subst h0
    simp at hs
  have h3 : (nonReporterTags env standupers).length ≠ 0 := by
    intro h0
    rw [List.length_eq_zero] at h0
    have hmem : ("<@" ++ s.UserID ++ ">") ∈ nonReporterTags env standupers := by
      unfold nonReporterTags
      refine List.mem_map.mpr ⟨s, ?_, rfl⟩
      simp [List.mem_filter, hs, hsub, hrole]
    rw [h0] at hmem
    simp at hmem
  refine ⟨env.localizer ⟨"tagNonReporters", some ((nonReporterTags env standupers).length : Int),
    [("user", (nonReporterTags env standupers).headD ""),
     ("users", ", ".intercalate (nonReporterTags env standupers))]⟩, ?_⟩
  simp only [notifyNotAll, h1, hl, h2, h3, if_false]

theorem retryNotifyNotAll_run (envs : Nat → NotifyEnv) (ReminderRepeatsMax : Int)
    (channelID : String)
    (hnon : ∀ n, ∃ standupers, (envs n).ListChannelStandupers channelID = .ok standupers ∧
      ∃ s ∈ standupers, (envs n).submitted s.UserID s.ChannelID = false ∧
        s.RoleInChannel ≠ "pm") (r : Nat) :
    ∀ (fuel n : Nat) (repeats : Int) (sent : List SentMessage),
      repeats + r = ReminderRepeatsMax → r + 1 ≤ fuel →
      ∃ c, retryNotifyNotAll envs ReminderRepeatsMax channelID fuel n repeats sent = some c ∧
        c.invocations = n + r + 1 ∧ c.repeats = ReminderRepeatsMax ∧
        c.sent.length = sent.length + r ∧
        (∀ m ∈ c.sent, m ∈ sent ∨ m.channel = channelID) := by
  induction r with
  | zero =>
    intro fuel n repeats sent hr hf
    match fuel, hf with
    | fuel + 1, _ =>
      have hstop := notifyNotAll_stop (envs n) ReminderRepeatsMax channelID repeats (by omega)
      refine ⟨⟨n + 1, repeats, sent⟩, ?_, rfl, by simp at hr; simpa using hr, by simp, ?_⟩
      · simp [retryNotifyNotAll, hstop]
      · intro m hm; exact Or.inl hm
  | succ r ih =>
    intro fuel n repeats sent hr hf
    match fuel, hf with
    | fuel + 1, hf =>
      obtain ⟨text, hcont⟩ := notifyNotAll_continue (envs n) ReminderRepeatsMax channelID
        repeats (by push_cast at hr; omega) (hnon n)
      obtain ⟨c, hc, hi, hrep, hlen, hch⟩ := ih fuel (n + 1) (repeats + 1)
        (sent ++ [⟨channelID, text, (envs n).SendMessage channelID text⟩])
        (by push_cast at hr; omega) (by omega)
      refine ⟨c, ?_, by omega, hrep, by simp at hlen; omega, ?_⟩
      · simp [retryNotifyNotAll, hcont, hc]
      · intro m hm
        rcases hch m hm with h | h
        · rcases List.mem_append.mp h with h | h
          · exact Or.inl h
          · simp at h; right; rw [h]
        · exact Or.inr h

/-- Counterexample to C3: the channel has a permanent developer who never
reports, and the ceiling is 3.  When the standuper lookup fails once, at the
first invocation, `notifyNotAll` returns the error before the counter is
incremented and the retry driver repeats the call: the loop has not stopped
after 4 invocations and stops only at the fifth, still with 3 messages.
When the lookup fails at every invocation the loop has not stopped after 50
invocations and has sent nothing. -/
theorem notifier_campaign_lookup_failure :
    retryNotifyNotAll flakyCampaignEnvs 3 "C1" 4 0 0 [] = none ∧
    (retryNotifyNotAll flakyCampaignEnvs 3 "C1" 5 0 0 []).map
        (fun c => (c.invocations, c.repeats, c.sent.length)) = some (5, 3, 3) ∧
    retryNotifyNotAll deadStoreEnvs 3 "C1" 50 0 0 [] = none := by
  decide

/-- C3 (amended): the campaign is bounded by the repeat ceiling while the store
answers.  For every ceiling `ReminderRepeatsMax >= 0`, every channel and
every outside world in which, at each invocation, the standuper lookup
succeeds and finds a standuper of the channel who has not reported and is
not a pm, the retry loop around `notifyNotAll` stops: given fuel for
`ReminderRepeatsMax + 1` invocations it returns, after exactly
`ReminderRepeatsMax + 1` invocations, having called `SendMessage` exactly
`ReminderRepeatsMax` times, all for this channel, with the repeat counter at the
ceiling.  The outcome of each send is arbitrary (it is part of the world), so
a failed send counts like a delivered one. -/
theorem notifier_campaign_bounded (envs : Nat → NotifyEnv) (ReminderRepeatsMax : Int)
    (channelID : String) (fuel : Nat) (hmax : 0 ≤ ReminderRepeatsMax)
    (hnon : ∀ n, ∃ standupers, (envs n).ListChannelStandupers channelID = .ok standupers ∧
      ∃ s ∈ standupers, (envs n).submitted s.UserID s.ChannelID = false ∧
        s.RoleInChannel ≠ "pm")
    (hfuel : ReminderRepeatsMax.toNat + 1 ≤ fuel) :
    ∃ c, retryNotifyNotAll envs ReminderRepeatsMax channelID fuel 0 0 [] = some c ∧
      (c.invocations : Int) = ReminderRepeatsMax + 1 ∧
      (c.sent.length : Int) = ReminderRepeatsMax ∧
      c.repeats = ReminderRepeatsMax ∧
      (∀ m ∈ c.sent, m.channel = channelID) := by
  obtain ⟨c, hc, hi, hrep, hlen, hch⟩ := retryNotifyNotAll_run envs ReminderRepeatsMax
    channelID hnon ReminderRepeatsMax.toNat fuel 0 0 [] (by simp [hmax]) hfuel
  refine ⟨c, hc, ?_, ?_, hrep, ?_⟩
  · rw [hi]; push_cast; rw [Int.toNat_of_nonneg hmax]; omega
  · rw [hlen]; simp [hmax]
  · intro m hm
    rcases hch m hm with h | h
    · simp at h
    · exact h

/-- Witness for C3 (amended): with the ceiling 3 and one permanent non-reporter the
loop stops after 4 invocations and 3 tag messages, two of which failed to send. -/
theorem notifier_campaign_bounded_witness :
    ∃ c, retryNotifyNotAll campaignEnvs 3 "C1" 4 0 0 [] = some c ∧
      (c.invocations : Int) = 3 + 1 ∧
      (c.sent.length : Int) = 3 ∧
      c.repeats = 3 ∧
      (∀ m ∈ c.sent, m.channel = "C1") :=
  notifier_campaign_bounded campaignEnvs 3 "C1" 4 (by decide)
    (fun _ => ⟨_, rfl, _, List.mem_singleton.mpr rfl, rfl, by decide⟩) (by decide)

/-! ## Scheduler -/

theorem startedThreads_singleton (env : SchedulerEnv) (t : Time) (channel : Channel) :
    startedThreads env t [channel] =
      if channel.TeamID ≠ env.properties.TeamID then []
      else if channel.StandupTime = "" then []
      else
        match env.Parse channel.StandupTime with
        | .found rTime =>
          if t.Hour = rTime.Hour ∧ t.Minute = rTime.Minute then [⟨channel⟩] else []
        | _ => [] := by
  unfold startedThreads
  by_cases hteam : channel.TeamID = env.properties.TeamID
  · by_cases hempty : channel.StandupTime = ""
    · simp [hteam, hempty]
    · cases hparse : env.Parse channel.StandupTime with
      | error msg => simp [hteam, hempty, hparse]
      | noMatch => simp [hteam, hempty, hparse]
      | found rTime =>
        by_cases hdl : t.Hour = rTime.Hour ∧ t.Minute = rTime.Minute
        · simp [hteam, hempty, hparse, hdl]
        · have hd : decide (t.Hour = rTime.Hour ∧ t.Minute = rTime.Minute) = false :=
            decide_eq_false hdl
          simp only [List.filter_cons, List.filter_nil, hteam, hparse, hd, if_neg hdl,
            Bool.and_false]
          simp [hempty]
  · simp [hteam]

theorem notifyChannel_step (env : SchedulerEnv) (t : Time) (st : BotState) (channel : Channel) :
    ∃ newA, notifyChannel env t st channel
        = ⟨st.notifierThreads ++ startedThreads env t [channel], st.actions ++ newA⟩ ∧
      (channel.StandupTime = "" → startedThreads env t [channel] = [] ∧ newA = []) ∧
      (∀ nt ∈ startedThreads env t [channel], nt.channel = channel) ∧
      (∀ a ∈ newA, a = Action.SendWarning channel.ChannelID ∨
        a = Action.SendChannelNotification ⟨channel⟩) := by
  rw [startedThreads_singleton]
  unfold notifyChannel
  by_cases hteam : channel.TeamID ≠ env.properties.TeamID
  · exact ⟨[], by simp [if_pos hteam], by simp [if_pos hteam], by simp [if_pos hteam],
      by simp⟩
  · simp only [if_neg hteam]
    by_cases hempty : channel.StandupTime = ""
    · exact ⟨[], by simp [if_pos hempty], by simp [if_pos hempty], by simp [if_pos hempty],
        by simp⟩
    · simp only [if_neg hempty]
      cases hparse : env.Parse channel.StandupTime with
      | error msg => exact ⟨[], by simp, by simp [hempty], by simp, by simp⟩
      | noMatch => exact ⟨[], by simp, by simp [hempty], by simp, by simp⟩
      | found rTime =>
        simp only []
        by_cases hdl : t.Hour = rTime.Hour ∧ t.Minute = rTime.Minute
        · by_cases hw : t.Hour = (timeUnix env.Local
              (wrap64 (rTime.unix - wrap64 (env.properties.ReminderTime * 60)))).Hour ∧
              t.Minute = (timeUnix env.Local
              (wrap64 (rTime.unix - wrap64 (env.properties.ReminderTime * 60)))).Minute
          · refine ⟨[Action.SendWarning channel.ChannelID,
              Action.SendChannelNotification ⟨channel⟩], ?_, by simp [hempty], ?_, by simp⟩
            · simp only [if_pos hdl, if_pos hw, AddNewNotifierThread]
              simp
            · simp only [if_pos hdl]
              simp
          · refine ⟨[Action.SendChannelNotification ⟨channel⟩], ?_, by simp [hempty], ?_,
              by simp⟩
            · simp only [if_pos hdl, if_neg hw, AddNewNotifierThread]
            · simp only [if_pos hdl]
              simp
        · by_cases hw : t.Hour = (timeUnix env.Local
              (wrap64 (rTime.unix - wrap64 (env.properties.ReminderTime * 60)))).Hour ∧
              t.Minute = (timeUnix env.Local
              (wrap64 (rTime.unix - wrap64 (env.properties.ReminderTime * 60)))).Minute
          · refine ⟨[Action.SendWarning channel.ChannelID], ?_, by simp [hempty], ?_, by simp⟩
            · simp only [if_neg hdl, if_pos hw]
              simp
            · simp only [if_neg hdl]
              simp
          · refine ⟨[], ?_, by simp [hempty], ?_, by simp⟩
            · simp only [if_neg hdl, if_neg hw]
              simp
            · simp only [if_neg hdl]
              simp

theorem startedThreads_cons (env : SchedulerEnv) (t : Time) (channel : Channel)
    (channels : List Channel) :
    startedThreads env t (channel :: channels)
      = startedThreads env t [channel] ++ startedThreads env t channels := by
  unfold startedThreads
  rw [← List.map_append, ← List.filter_append]
  rfl

theorem notifyChannels_fold (env : SchedulerEnv) (t : Time) (channels : List Channel) :
    ∀ st : BotState, ∃ newA, channels.foldl (notifyChannel env t) st
        = ⟨st.notifierThreads ++ startedThreads env t channels, st.actions ++ newA⟩ ∧
      (∀ nt ∈ startedThreads env t channels,
        nt.channel ∈ channels ∧ nt.channel.StandupTime ≠ "") ∧
      (∀ a ∈ newA, ∃ ch ∈ channels, ch.StandupTime ≠ "" ∧
        (a = Action.SendWarning ch.ChannelID ∨ a = Action.SendChannelNotification ⟨ch⟩)) := by
  induction channels with
  | nil =>
    intro st
    exact ⟨[], by simp [startedThreads], by simp [startedThreads], by simp⟩
  | cons channel rest ih =>
    intro st
    obtain ⟨newA1, h1, hempty1, hnt1, ha1⟩ := notifyChannel_step env t st channel
    obtain ⟨newA2, h2, hnt2, ha2⟩ := ih (notifyChannel env t st channel)
    refine ⟨newA1 ++ newA2, ?_, ?_, ?_⟩
    · rw [List.foldl_cons, h2, h1, startedThreads_cons env t channel rest]
      simp
    · intro nt hnt
      rw [startedThreads_cons env t channel rest] at hnt
      rcases List.mem_append.mp hnt with h | h
      · have hc := hnt1 nt h
        refine ⟨by simp [hc], ?_⟩
        intro he
        rw [hc] at he
        rw [(hempty1 he).1] at h
        simp at h
      · exact ⟨List.mem_cons_of_mem _ (hnt2 nt h).1, (hnt2 nt h).2⟩
    · intro a ha
      rcases List.mem_append.mp ha with h | h
      · refine ⟨channel, by simp, ?_, ha1 a h⟩
        intro he
        rw [(hempty1 he).2] at h
        simp at h
      · obtain ⟨ch, hch, hne, hact⟩ := ha2 a h
        exact ⟨ch, List.mem_cons_of_mem _ hch, hne, hact⟩

/-- Counterexample to C4: from the empty list, the deadline-minute ticks of
Monday and Tuesday for the same channel, with no removal in between, leave
two threads registered for it, so the channel IDs in the list are not
pairwise distinct. -/
theorem notifyChannels_registers_twice :
    (NotifyChannels (deadlineEnv tuesday) ⟨tuesday + 36000, 0⟩
        (NotifyChannels (deadlineEnv monday) ⟨monday + 36000, 0⟩ idleBot)).notifierThreads
      = [⟨deadlineChannel⟩, ⟨deadlineChannel⟩] ∧
    ¬ ((NotifyChannels (deadlineEnv tuesday) ⟨tuesday + 36000, 0⟩
        (NotifyChannels (deadlineEnv monday) ⟨monday + 36000, 0⟩ idleBot)).notifierThreads.map
          (fun nt => nt.channel.ID)).Nodup := by
  decide

/-- C4 (amended): `NotifyChannels` registers without looking at the list.  For
every world, tick and state, the notifier list after the tick is the list
before it followed by one new thread for each own-workspace channel whose
non-empty deadline resolves to the hour and minute of the tick, in store
order (none on a weekend tick or when the channel listing fails).  Nothing is
removed and nothing is compared with the threads already registered. -/
theorem notifyChannels_appends_threads (env : SchedulerEnv) (t : Time) (st : BotState) :
    (NotifyChannels env t st).notifierThreads
      = st.notifierThreads ++ registeredByTick env t := by
  unfold NotifyChannels registeredByTick
  by_cases hwe : t.Weekday = 6 ∨ t.Weekday = 0
  · simp [if_pos hwe]
  · simp only [if_neg hwe]
    cases hl : env.ListChannels with
    | error e => simp
    | ok channels =>
      obtain ⟨newA, h, _, _⟩ := notifyChannels_fold env t channels st
      simp [h]

/-- C5: a channel with an empty deadline is never warned and never gets a
thread.  For every world, tick and state, the loop body leaves the state
unchanged for a channel whose `StandupTime` is empty; and over the whole tick
every thread that is registered and every call that is made (`SendWarning` or
the start of a notifier) comes from a listed channel whose `StandupTime` is
not empty, hence from another channel. -/
theorem emptyDeadline_never_notified (env : SchedulerEnv) (t : Time) (st : BotState)
    (channel : Channel) (hempty : channel.StandupTime = "") :
    notifyChannel env t st channel = st ∧
    ∃ newA, NotifyChannels env t st
        = ⟨st.notifierThreads ++ registeredByTick env t, st.actions ++ newA⟩ ∧
      (∀ nt ∈ registeredByTick env t, nt.channel ≠ channel ∧ nt.channel.StandupTime ≠ "") ∧
      (∀ a ∈ newA, ∃ ch, ch ≠ channel ∧ ch.StandupTime ≠ "" ∧
        (∃ channels, env.ListChannels = .ok channels ∧ ch ∈ channels) ∧
        (a = Action.SendWarning ch.ChannelID ∨ a = Action.SendChannelNotification ⟨ch⟩)) := by
  have hne : ∀ ch : Channel, ch.StandupTime ≠ "" → ch ≠ channel := by
    intro ch h he
    rw [he] at h
    exact h hempty
  constructor
  · obtain ⟨newA, h, he, _, _⟩ := notifyChannel_step env t st channel
    rw [h, (he hempty).1, (he hempty).2]
    simp
  · unfold NotifyChannels registeredByTick
    by_cases hwe : t.Weekday = 6 ∨ t.Weekday = 0
    · exact ⟨[], by simp [if_pos hwe], by simp [if_pos hwe], by simp⟩
    · simp only [if_neg hwe]
      cases hl : env.ListChannels with
      | error e => exact ⟨[], by simp, by simp, by simp⟩
      | ok channels =>
        obtain ⟨newA, h, hnt, ha⟩ := notifyChannels_fold env t channels st
        refine ⟨newA, h, ?_, ?_⟩
        · intro nt hmem
          exact ⟨hne _ (hnt nt hmem).2, (hnt nt hmem).2⟩
        · intro a hmem
          obtain ⟨ch, hch, hnon, hact⟩ := ha a hmem
          exact ⟨ch, hne ch hnon, hnon, ⟨channels, rfl, hch⟩, hact⟩

/-- Witness for C5: at the Monday 09:45 warning minute the channel without a
deadline is passed over. -/
theorem emptyDeadline_never_notified_witness :
    notifyChannel (deadlineEnv monday) ⟨monday + 35100, 0⟩ idleBot silentChannel = idleBot :=
  (emptyDeadline_never_notified (deadlineEnv monday) ⟨monday + 35100, 0⟩ idleBot
    silentChannel rfl).1

/-- C6: weekend gating.  For every world and state and every tick whose
weekday is Saturday (6) or Sunday (0), `NotifyChannels` returns the state
unchanged: no `SendWarning` call, no notifier start, and the same notifier
list, whatever the deadlines and the warning offset. -/
theorem notifyChannels_weekend (env : SchedulerEnv) (t : Time) (st : BotState)
    (hweekend : t.Weekday = 6 ∨ t.Weekday = 0) :
    NotifyChannels env t st = st := by
  unfold NotifyChannels
  rw [if_pos hweekend]

/-- Witness for C6: with the deadline "10:00" and the offset 15, the Saturday
09:45 tick and the Sunday 10:00 tick change nothing, while the same ticks on
Monday send the warning and start the notifier. -/
theorem notifyChannels_weekend_witness :
    (NotifyChannels (deadlineEnv saturday) ⟨saturday + 35100, 0⟩ idleBot = idleBot ∧
      NotifyChannels (deadlineEnv sunday) ⟨sunday + 36000, 0⟩ idleBot = idleBot) ∧
    NotifyChannels (deadlineEnv monday) ⟨monday + 35100, 0⟩ idleBot
      = ⟨[], [Action.SendWarning "C1"]⟩ ∧
    NotifyChannels (deadlineEnv monday) ⟨monday + 36000, 0⟩ idleBot
      = ⟨[⟨deadlineChannel⟩], [Action.SendChannelNotification ⟨deadlineChannel⟩]⟩ :=
  ⟨⟨notifyChannels_weekend (deadlineEnv saturday) ⟨saturday + 35100, 0⟩ idleBot (by decide),
    notifyChannels_weekend (deadlineEnv sunday) ⟨sunday + 36000, 0⟩ idleBot (by decide)⟩,
   by decide, by decide⟩
/-! ## Engagement tracker -/

/-- C7 (the code at two failing inputs).  First world: the latest record was
created on 2021-02-15 and now is 2021-03-15, both in the member's zone, yet
`submittedStandupToday` returns true, because only the day of the month is
compared.  Second world: the record was created on 2021-03-15 in the member's
zone (six hours east) and now is 2021-03-15 there, yet the function returns
false, because the creation instant is read in the process-local zone, where
it is still 2021-03-14. -/
theorem submittedStandupToday_compares_day_of_month :
    (submittedStandupToday staleRecordEnv "U1" "C1" = true ∧
      (Time.InFixedZone ⟨1613390400, 0⟩ 0).Date = (2021, 2, 15) ∧
      (Time.InFixedZone ⟨staleRecordEnv.Now, 0⟩ 0).Date = (2021, 3, 15)) ∧
    (submittedStandupToday eastMemberEnv "U1" "C1" = false ∧
      (Time.InFixedZone ⟨1615752000, 0⟩ 21600).Date = (2021, 3, 15) ∧
      (Time.InFixedZone ⟨eastMemberEnv.Now, 0⟩ 21600).Date = (2021, 3, 15) ∧
      (timeUnix eastMemberEnv.Local 1615752000).Date = (2021, 3, 14)) := by
  decide

/-! ## Report scoring -/

theorem worklogsBucket_points (w : Int) :
    (worklogsBucket w).2 = if w < 3 then 0 else if w < 7 then 0 else if w < 9 then 1 else 1 := by
  unfold worklogsBucket
  split_ifs <;> first | rfl | omega

theorem weeklyWorklogsBucket_points (w : Int) :
    (weeklyWorklogsBucket w).2 = if w < 31 then 0 else if w < 35 then 1 else 1 := by
  unfold weeklyWorklogsBucket
  split_ifs <;> first | rfl | omega

theorem commitsBucket_points (c : Int) :
    (commitsBucket c).2 = if 0 < c then 1 else 0 := by
  unfold commitsBucket
  split_ifs <;> first | rfl | omega

theorem processWorklogs_snd (localizer : Localizer) (weekday totalWorklogs projectWorklogs : Int) :
    (processWorklogs localizer weekday totalWorklogs projectWorklogs).2
      = (worklogsBucket (Int.tdiv totalWorklogs 3600)).2 := by
  unfold processWorklogs
  simp only []
  split_ifs <;> rfl

theorem reporterProcessWorklogs_snd (localizer : Localizer) (secondsToHuman : Int → String)
    (weekday totalWorklogs projectWorklogs : Int) :
    (Reporter.processWorklogs localizer secondsToHuman weekday totalWorklogs projectWorklogs).2
      = (worklogsBucket (Int.tdiv totalWorklogs 3600)).2 := by
  unfold Reporter.processWorklogs
  simp only []
  split_ifs <;> rfl

theorem processCommits_snd (localizer : Localizer) (weekday totalCommits projectCommits : Int) :
    (processCommits localizer weekday totalCommits projectCommits).2
      = (commitsBucket projectCommits).2 := by
  unfold processCommits
  simp only []
  split_ifs <;> rfl

theorem reporterProcessCommits_snd (localizer : Localizer)
    (weekday totalCommits projectCommits : Int) :
    (Reporter.processCommits localizer weekday totalCommits projectCommits).2
      = (commitsBucket projectCommits).2 := by
  unfold Reporter.processCommits
  simp only []
  split_ifs <;> rfl

/-- C8: daily worklog score.  For every localizer, weekday and pair of worklog
seconds, the points of `Bot.processWorklogs` and of `Reporter.processWorklogs`
are a function of `w = totalWorklogs / 3600` (Go division) alone: 0 for
`w < 3`, 0 for `3 <= w < 7`, 1 for `7 <= w < 9`, 1 for `w >= 9`.  So the score
is 1 exactly when `w >= 7`, and it is always 0 or 1. -/
theorem processWorklogs_points (localizer : Localizer) (secondsToHuman : Int → String)
    (weekday totalWorklogs projectWorklogs : Int) :
    (processWorklogs localizer weekday totalWorklogs projectWorklogs).2
        = (if Int.tdiv totalWorklogs 3600 < 3 then 0
            else if Int.tdiv totalWorklogs 3600 < 7 then 0
            else if Int.tdiv totalWorklogs 3600 < 9 then 1 else 1) ∧
      (Reporter.processWorklogs localizer secondsToHuman weekday totalWorklogs
          projectWorklogs).2
        = (processWorklogs localizer weekday totalWorklogs projectWorklogs).2 ∧
      ((processWorklogs localizer weekday totalWorklogs projectWorklogs).2 = 1
        ↔ 7 ≤ Int.tdiv totalWorklogs 3600) ∧
      ((processWorklogs localizer weekday totalWorklogs projectWorklogs).2 = 0 ∨
        (processWorklogs localizer weekday totalWorklogs projectWorklogs).2 = 1) := by
  rw [reporterProcessWorklogs_snd, processWorklogs_snd, worklogsBucket_points]
  refine ⟨rfl, rfl, ?_, ?_⟩ <;> split_ifs <;> omega

/-- C9: weekly worklog score.  For every localizer and pair of worklog seconds,
the points of `Bot.processWeeklyWorklogs` and of
`Reporter.processWeeklyWorklogs` are 0 when `totalWorklogs / 3600 < 31` and 1
when it is in `[31, 35)` or at least 35; the score is always 0 or 1 and is the
same for every value of `projectWorklogs`. -/
theorem processWeeklyWorklogs_points (localizer : Localizer) (secondsToHuman : Int → String)
    (totalWorklogs projectWorklogs otherProjectWorklogs : Int) :
    (processWeeklyWorklogs localizer totalWorklogs projectWorklogs).2
        = (if Int.tdiv totalWorklogs 3600 < 31 then 0
            else if Int.tdiv totalWorklogs 3600 < 35 then 1 else 1) ∧
      (Reporter.processWeeklyWorklogs localizer secondsToHuman totalWorklogs
          projectWorklogs).2
        = (processWeeklyWorklogs localizer totalWorklogs projectWorklogs).2 ∧
      ((processWeeklyWorklogs localizer totalWorklogs projectWorklogs).2 = 0 ∨
        (processWeeklyWorklogs localizer totalWorklogs projectWorklogs).2 = 1) ∧
      (processWeeklyWorklogs localizer totalWorklogs otherProjectWorklogs).2
        = (processWeeklyWorklogs localizer totalWorklogs projectWorklogs).2 := by
  have h : ∀ p : Int, (processWeeklyWorklogs localizer totalWorklogs p).2
      = (weeklyWorklogsBucket (Int.tdiv totalWorklogs 3600)).2 := fun _ => rfl
  have hr : (Reporter.processWeeklyWorklogs localizer secondsToHuman totalWorklogs
      projectWorklogs).2 = (weeklyWorklogsBucket (Int.tdiv totalWorklogs 3600)).2 := rfl
  rw [hr, h, h, weeklyWorklogsBucket_points]
  refine ⟨rfl, rfl, ?_, rfl⟩
  split_ifs <;> omega

/-- Counterexample to C10: for the commit count -1 the points are 0, not 1,
in both `Bot.processCommits` and `Reporter.processCommits`. -/
theorem processCommits_negative_count :
    (processCommits (fun cfg => cfg.ID) 3 0 (-1)).2 = 0 ∧
    (Reporter.processCommits (fun cfg => cfg.ID) 3 0 (-1)).2 = 0 ∧
    ¬ ((processCommits (fun cfg => cfg.ID) 3 0 (-1)).2
        = if (-1 : Int) = 0 then 0 else 1) := by
  decide

/-- C10 (amended): commit score.  For every localizer, weekday, total count
and in-channel count `projectCommits`, the points of `Bot.processCommits` and
of `Reporter.processCommits` are 1 if `projectCommits > 0` and 0 otherwise;
so for every count that is not negative (a natural number `count`) they are
0 if the count is 0 and 1 otherwise. -/
theorem processCommits_points (localizer : Localizer)
    (weekday totalCommits projectCommits : Int) (count : Nat) :
    (processCommits localizer weekday totalCommits projectCommits).2
        = (if 0 < projectCommits then 1 else 0) ∧
      (Reporter.processCommits localizer weekday totalCommits projectCommits).2
        = (if 0 < projectCommits then 1 else 0) ∧
      (processCommits localizer weekday totalCommits (count : Int)).2
        = (if count = 0 then 0 else 1) ∧
      (Reporter.processCommits localizer weekday totalCommits (count : Int)).2
        = (if count = 0 then 0 else 1) := by
  rw [reporterProcessCommits_snd, processCommits_snd, commitsBucket_points,
    reporterProcessCommits_snd, processCommits_snd, commitsBucket_points]
  refine ⟨rfl, rfl, ?_, ?_⟩ <;> split_ifs <;> omega
/-! ## Report builders -/

/-- C11 (the code at a failing input).  For a pm with 5 in-channel commits whose
analytics call succeeds, on a Wednesday, the daily and the weekly loop body
leave the commit text empty but the commit sub-score at 2: the point from
`processCommits` and the role's `commitsPoints++` add up.  The same holds
for a designer. -/
theorem pm_commit_point_counted_twice :
    ((dailyScores (reportEnv 3 30000 5 false) (memberWithRole "pm")).commits = "" ∧
      (dailyScores (reportEnv 3 30000 5 false) (memberWithRole "pm")).commitsPoints = 2) ∧
    ((weeklyScores (reportEnv 3 30000 5 false) (memberWithRole "pm")).commits = "" ∧
      (weeklyScores (reportEnv 3 30000 5 false) (memberWithRole "pm")).commitsPoints = 2) ∧
    (dailyScores (reportEnv 3 30000 5 false) (memberWithRole "designer")).commitsPoints = 2 ∧
    (dailyScores (reportEnv 3 30000 5 false) (memberWithRole "developer")).commitsPoints = 1 := by
  decide

/-- C12 (the code at a failing input).  For a pm with 30000 worklog seconds, 5
commits and a standup on record the daily total is 4, and for a pm with
126000 worklog seconds and 5 commits the weekly total is 3; neither value
has a case in the colour switch, so the attachments are emitted without a
colour. -/
theorem total_points_exceed_maximum :
    dailyPoints (reportEnv 3 30000 5 false) (memberWithRole "pm") = 4 ∧
    weeklyPoints (reportEnv 3 126000 5 false) (memberWithRole "pm") = 3 ∧
    (dailyEntry (reportEnv 3 30000 5 false) generalProject (memberWithRole "pm")).map
        (fun item => item.SlackAttachment.Color) = some "" ∧
    (weeklyEntry (reportEnv 3 126000 5 false) generalProject (memberWithRole "pm")).map
        (fun item => item.SlackAttachment.Color) = some "" := by
  decide

theorem dailyEntry_some (env : ReportEnv) (channel : Project) (standuper : Standuper)
    (item : AttachmentItem) (hemit : dailyEntry env channel standuper = some item) :
    item.SlackAttachment.Color = dailyColor (dailyPoints env standuper) env.weekday ∧
    item.SlackAttachment.Text =
      (if 3 ≤ dailyPoints env standuper then
        env.localizer ⟨"notTagStanduper", none,
          [("user", standuper.RealName), ("channel", channel.ChannelName)]⟩
      else
        env.localizer ⟨"tagStanduper", none,
          [("user", standuper.UserID), ("channel", channel.ChannelName)]⟩) ∧
    item.Points = (dailyScores env standuper).projectWorklogs := by
  unfold dailyEntry at hemit
  simp only [] at hemit
  split_ifs at hemit with h1 h2
  · simp only [Option.some.injEq] at hemit
    subst hemit
    refine ⟨rfl, ?_, rfl⟩
    simp only [dailyPoints]
    rw [if_pos h2]
  · simp only [Option.some.injEq] at hemit
    subst hemit
    refine ⟨rfl, ?_, rfl⟩
    simp only [dailyPoints]
    rw [if_neg (by simpa using h2)]

theorem weeklyEntry_some (env : ReportEnv) (channel : Project) (standuper : Standuper)
    (item : AttachmentItem) (hemit : weeklyEntry env channel standuper = some item) :
    item.SlackAttachment.Color = weeklyColor (weeklyPoints env standuper) ∧
    item.SlackAttachment.Text =
      (if 2 ≤ weeklyPoints env standuper then
        env.localizer ⟨"notTagStanduper", none,
          [("user", standuper.RealName), ("channel", channel.ChannelName)]⟩
      else
        env.localizer ⟨"tagStanduper", none,
          [("user", standuper.UserID), ("channel", channel.ChannelName)]⟩) ∧
    item.Points = (weeklyScores env standuper).projectWorklogs := by
  unfold weeklyEntry at hemit
  simp only [] at hemit
  split_ifs at hemit with h1 h2
  · simp only [Option.some.injEq] at hemit
    subst hemit
    refine ⟨rfl, ?_, rfl⟩
    simp only [weeklyPoints]
    rw [if_pos h2]
  · simp only [Option.some.injEq] at hemit
    subst hemit
    refine ⟨rfl, ?_, rfl⟩
    simp only [weeklyPoints]
    rw [if_neg (by simpa using h2)]

/-- C13: daily score-to-colour mapping.  For every world, channel and member
whose daily loop body emits an entry, if the total points `p` lie in 0..3
then the colour of the entry is "good" when the weekday of the computation
is Sunday (0) or Monday (1), and otherwise "danger" for `p = 0`, "warning"
for `p = 1` or `p = 2`, "good" for `p = 3`.  The colour switch itself
(`dailyColor`, the same in the `Bot` and the `Reporter` builder) has this
value for every `p` in 0..3 and every weekday. -/
theorem daily_color_mapping (env : ReportEnv) (channel : Project) (standuper : Standuper)
    (item : AttachmentItem) (p weekday : Int)
    (hemit : dailyEntry env channel standuper = some item)
    (hp : dailyPoints env standuper = p) (h0 : 0 ≤ p) (h3 : p ≤ 3) :
    item.SlackAttachment.Color =
      (if env.weekday = 0 ∨ env.weekday = 1 then "good"
        else if p = 0 then "danger" else if p = 1 ∨ p = 2 then "warning" else "good") ∧
    dailyColor p weekday =
      (if weekday = 0 ∨ weekday = 1 then "good"
        else if p = 0 then "danger" else if p = 1 ∨ p = 2 then "warning" else "good") := by
  have hswitch : ∀ wd : Int, dailyColor p wd =
      (if wd = 0 ∨ wd = 1 then "good"
        else if p = 0 then "danger" else if p = 1 ∨ p = 2 then "warning" else "good") := by
    intro wd
    unfold dailyColor
    simp only []
    split_ifs <;> first | rfl | omega
  rw [(dailyEntry_some env channel standuper item hemit).1, hp]
  exact ⟨hswitch env.weekday, hswitch weekday⟩

/-- Witness for C13: a developer with full score on a Wednesday gets the colour
"good" as the case `p = 3`. -/
theorem daily_color_mapping_witness :
    fullScoreDailyItem.SlackAttachment.Color =
      (if (reportEnv 3 30000 5 false).weekday = 0 ∨ (reportEnv 3 30000 5 false).weekday = 1
        then "good"
        else if (3 : Int) = 0 then "danger"
        else if (3 : Int) = 1 ∨ (3 : Int) = 2 then "warning" else "good") ∧
    dailyColor 3 0 =
      (if (0 : Int) = 0 ∨ (0 : Int) = 1 then "good"
        else if (3 : Int) = 0 then "danger"
        else if (3 : Int) = 1 ∨ (3 : Int) = 2 then "warning" else "good") :=
  daily_color_mapping (reportEnv 3 30000 5 false) generalProject (memberWithRole "developer")
    fullScoreDailyItem 3 0 (by decide) (by decide) (by decide) (by decide)

/-- Counterexample to C14: a weekly report computed on a Sunday emits, for a
developer with no worklogs and no commits, an entry with 0 points whose
colour is "danger", not "good". -/
theorem weekly_color_not_forced_on_sunday :
    (reportEnv 0 0 0 false).weekday = 0 ∧
    weeklyPoints (reportEnv 0 0 0 false) (memberWithRole "developer") = 0 ∧
    (weeklyEntry (reportEnv 0 0 0 false) generalProject (memberWithRole "developer")).map
        (fun item => item.SlackAttachment.Color) = some "danger" := by
  decide

/-- C14 (amended): weekly score-to-colour mapping.  For every world (hence every
weekday), channel and member whose weekly loop body emits an entry, if the
total points `p` lie in 0..2 then the colour of the entry is "danger" for
`p = 0`, "warning" for `p = 1` and "good" for `p = 2`; the weekday of the
computation is not read.  The colour switch itself (`weeklyColor`, the same
in the `Bot` and the `Reporter` builder) has this value. -/
theorem weekly_color_mapping (env : ReportEnv) (channel : Project) (standuper : Standuper)
    (item : AttachmentItem) (p : Int)
    (hemit : weeklyEntry env channel standuper = some item)
    (hp : weeklyPoints env standuper = p) (h0 : 0 ≤ p) (h2 : p ≤ 2) :
    item.SlackAttachment.Color =
      (if p = 0 then "danger" else if p = 1 then "warning" else "good") ∧
    weeklyColor p = (if p = 0 then "danger" else if p = 1 then "warning" else "good") := by
  have hswitch : weeklyColor p =
      (if p = 0 then "danger" else if p = 1 then "warning" else "good") := by
    unfold weeklyColor
    split_ifs <;> first | rfl | omega
  rw [(weeklyEntry_some env channel standuper item hemit).1, hp]
  exact ⟨hswitch, hswitch⟩

/-- Witness for C14 (amended): the weekly entry of a developer with one point. -/
theorem weekly_color_mapping_witness :
    onePointWeeklyItem.SlackAttachment.Color =
      (if (1 : Int) = 0 then "danger" else if (1 : Int) = 1 then "warning" else "good") ∧
    weeklyColor 1 =
      (if (1 : Int) = 0 then "danger" else if (1 : Int) = 1 then "warning" else "good") :=
  weekly_color_mapping (reportEnv 3 30000 5 false) generalProject (memberWithRole "developer")
    onePointWeeklyItem 1 (by decide) (by decide) (by decide) (by decide)

/-- C15: naming versus tagging.  For every entry that the daily loop body
emits, the text is the not-tag message built from the member's display name
if the total points are at least 3, and the tag message built from the
member's user ID otherwise; for every entry that the weekly loop body emits
the same holds with the threshold 2. -/
theorem entry_text_names_or_tags (envD envW : ReportEnv) (channelD channelW : Project)
    (standuperD standuperW : Standuper) (daily weekly : AttachmentItem)
    (hdaily : dailyEntry envD channelD standuperD = some daily)
    (hweekly : weeklyEntry envW channelW standuperW = some weekly) :
    daily.SlackAttachment.Text =
      (if 3 ≤ dailyPoints envD standuperD then
        envD.localizer ⟨"notTagStanduper", none,
          [("user", standuperD.RealName), ("channel", channelD.ChannelName)]⟩
      else
        envD.localizer ⟨"tagStanduper", none,
          [("user", standuperD.UserID), ("channel", channelD.ChannelName)]⟩) ∧
    weekly.SlackAttachment.Text =
      (if 2 ≤ weeklyPoints envW standuperW then
        envW.localizer ⟨"notTagStanduper", none,
          [("user", standuperW.RealName), ("channel", channelW.ChannelName)]⟩
      else
        envW.localizer ⟨"tagStanduper", none,
          [("user", standuperW.UserID), ("channel", channelW.ChannelName)]⟩) :=
  ⟨(dailyEntry_some envD channelD standuperD daily hdaily).2.1,
    (weeklyEntry_some envW channelW standuperW weekly hweekly).2.1⟩

/-- Witness for C15: the developer with three daily points is named, and with
one weekly point is tagged. -/
theorem entry_text_names_or_tags_witness :
    fullScoreDailyItem.SlackAttachment.Text = "notTagStanduper" ∧
    onePointWeeklyItem.SlackAttachment.Text = "tagStanduper" :=
  entry_text_names_or_tags (reportEnv 3 30000 5 false) (reportEnv 3 30000 5 false)
    generalProject generalProject (memberWithRole "developer") (memberWithRole "developer")
    fullScoreDailyItem onePointWeeklyItem (by decide) (by decide)

/-- C16 (the code at a failing input).  When `GetStandupForPeriod` returns an
error, and likewise when `SelectProject` returns an error,
`Bot.processStandup` returns the empty text with 0 points: the standup point
is not awarded.  `Reporter.processStandup` returns the empty text with 1
point when its lookup fails. -/
theorem processStandup_lookup_failure_scores_zero :
    processStandup standupLookupFailsEnv (memberWithRole "developer") = ("", 0) ∧
    processStandup projectLookupFailsEnv (memberWithRole "developer") = ("", 0) ∧
    Reporter.processStandup reporterLookupFailsEnv 1 "U1" "C1" = ("", 1) := by
  decide

/-- C17: standup score when the lookups succeed.  For every world and member
whose project lookup returns `channel` and whose standup lookup returns
`record` without error, `Bot.processStandup` returns the has-standup text
with 1 point when a record exists, the empty text with 1 point when no
record exists and the prior day is not a submission day of the channel, and
the no-standup text with 0 points when no record exists and the prior day is
a submission day.  The points are 0 or 1. -/
theorem processStandup_scores (env : ReportEnv) (member : Standuper) (channel : Project)
    (record : Option Standup)
    (hchannel : env.SelectProject member.ChannelID = .ok channel)
    (hrecord : env.GetStandupForPeriod member.UserID member.ChannelID = .ok record) :
    processStandup env member =
      (if record.isSome = true then (env.localizer ⟨"hasStandup", none, []⟩, 1)
        else if env.shouldSubmitStandupIn channel = true then
          (env.localizer ⟨"noStandup", none, []⟩, 0)
        else ("", 1)) ∧
    ((processStandup env member).2 = 0 ∨ (processStandup env member).2 = 1) := by
  cases record with
  | some r =>
    have h : processStandup env member = (env.localizer ⟨"hasStandup", none, []⟩, 1) := by
      simp only [processStandup, hchannel, hrecord]
      rfl
    rw [h]
    exact ⟨rfl, Or.inr rfl⟩
  | none =>
    cases hs : env.shouldSubmitStandupIn channel with
    | true =>
      have h : processStandup env member = (env.localizer ⟨"noStandup", none, []⟩, 0) := by
        simp [processStandup, hchannel, hrecord, hs]
      rw [h]
      exact ⟨rfl, Or.inl rfl⟩
    | false =>
      have h : processStandup env member = ("", 1) := by
        simp [processStandup, hchannel, hrecord, hs]
      rw [h]
      exact ⟨rfl, Or.inr rfl⟩

/-- Witness for C17: no record and no submission day give the empty text and
one point. -/
theorem processStandup_scores_witness :
    processStandup (noStandupEnv false) (memberWithRole "developer") = ("", 1) ∧
    ((processStandup (noStandupEnv false) (memberWithRole "developer")).2 = 0 ∨
      (processStandup (noStandupEnv false) (memberWithRole "developer")).2 = 1) :=
  processStandup_scores (noStandupEnv false) (memberWithRole "developer") generalProject none
    rfl rfl

/-- C18 (the code at a failing input).  For a pm whose analytics call fails, the
daily and the weekly loop body leave both texts empty and the worklog
sub-score at 1, but the commit sub-score at 2: the role's `commitsPoints++`
and the failure's `commitsPoints++` add up.  For a developer the commit
sub-score is 1. -/
theorem collector_failure_pm_commit_points :
    dailyScores (reportEnv 3 30000 5 true) (memberWithRole "pm")
      = ⟨"", "", "hasStandup", 1, 2, 1, 0⟩ ∧
    weeklyScores (reportEnv 3 30000 5 true) (memberWithRole "pm")
      = ⟨"", "", "", 1, 2, 0, 0⟩ ∧
    (dailyScores (reportEnv 3 30000 5 true) (memberWithRole "designer")).commitsPoints = 2 ∧
    (dailyScores (reportEnv 3 30000 5 true) (memberWithRole "developer")).commitsPoints = 1 := by
  decide

/-! ## Warning broadcast -/

theorem missingStandupers_filter (env : WarningEnv) (channelID : String)
    (standupers : List Standuper) (h : env.ListStandupers = .ok standupers) :
    standupers.filter (fun standuper =>
        decide (standuper.ChannelID = channelID)
          && !env.submitted standuper.UserID standuper.ChannelID
          && decide (standuper.RoleInChannel ≠ "pm"))
      = missingStandupers env channelID := by
  unfold missingStandupers
  rw [h]
  apply List.filter_congr
  intro s _
  cases decide (s.ChannelID = channelID) <;> cases env.submitted s.UserID s.ChannelID <;>
    cases decide (s.RoleInChannel ≠ "pm") <;> rfl

theorem sendWarning_sent_eq (env : WarningEnv) (channelID : String) :
    (SendWarning env channelID).sent =
      (if missingStandupers env channelID = [] then []
        else
          [⟨channelID,
            warningText env ((missingStandupers env channelID).map
              (fun standuper => "<@" ++ standuper.UserID ++ ">")),
            env.SendMessage channelID
              (warningText env ((missingStandupers env channelID).map
                (fun standuper => "<@" ++ standuper.UserID ++ ">")))⟩]) := by
  unfold SendWarning
  cases hl : env.ListStandupers with
  | error e => simp [missingStandupers, hl]
  | ok standupers =>
    simp only []
    rw [missingStandupers_filter env channelID standupers hl]
    by_cases hm : missingStandupers env channelID = []
    · rw [hm]
      simp
    · have hne : standupers.length ≠ 0 := by
        intro h0
        apply hm
        rw [List.length_eq_zero] at h0
        simp [missingStandupers, hl, h0]
      simp [hne, hm]

theorem sendWarning_sent_ne_nil (env : WarningEnv) (channelID : String) :
    (SendWarning env channelID).sent ≠ [] ↔ missingStandupers env channelID ≠ [] := by
  rw [sendWarning_sent_eq]
  by_cases hm : missingStandupers env channelID = []
  · simp [hm]
  · simp [hm]

/-- C19: `SendWarning(channelID)` makes at most one `SendMessage` call, and
makes one exactly when some standuper in the store has a role other than pm,
belongs to the channel and has not reported today.  The message goes to
that channel, and its text is the localized `warnNonReporters` message whose
template data list the mentions `<@UserID>` of exactly those standupers, in
store order: the first mention as `user`, all mentions joined by a comma and
a blank as `users`, and the localized `minutes` of the reminder time; every
standuper mentioned is not a pm, is of the channel and has not reported.
When the store lookup fails nothing is sent.  In the example store (a
developer and a designer of C1 who have not reported, a pm of C1 who has
not, a developer of C1 who has, a developer of C2 who has not) the warning
for C1 mentions the developer and the designer only. -/
theorem sendWarning_lists_missing (env : WarningEnv) (channelID : String) :
    (SendWarning env channelID).sent =
      (if missingStandupers env channelID = [] then []
        else
          [⟨channelID,
            env.localizer ⟨"warnNonReporters",
              some (((missingStandupers env channelID).map
                (fun standuper => "<@" ++ standuper.UserID ++ ">")).length : Int),
              [("user", ((missingStandupers env channelID).map
                  (fun standuper => "<@" ++ standuper.UserID ++ ">")).headD ""),
               ("users", ", ".intercalate ((missingStandupers env channelID).map
                  (fun standuper => "<@" ++ standuper.UserID ++ ">"))),
               ("minutes", env.localizer
                  ⟨"minutes", some env.ReminderTime,
                    [("time", toString env.ReminderTime)]⟩)]⟩,
            env.SendMessage channelID
              (env.localizer ⟨"warnNonReporters",
                some (((missingStandupers env channelID).map
                  (fun standuper => "<@" ++ standuper.UserID ++ ">")).length : Int),
                [("user", ((missingStandupers env channelID).map
                    (fun standuper => "<@" ++ standuper.UserID ++ ">")).headD ""),
                 ("users", ", ".intercalate ((missingStandupers env channelID).map
                    (fun standuper => "<@" ++ standuper.UserID ++ ">"))),
                 ("minutes", env.localizer
                    ⟨"minutes", some env.ReminderTime,
                      [("time", toString env.ReminderTime)]⟩)]⟩)⟩]) ∧
    (SendWarning env channelID).sent.length ≤ 1 ∧
    ((SendWarning env channelID).sent.length = 1 ↔
      ∃ standuper, standuper ∈ missingStandupers env channelID) ∧
    (∀ standuper ∈ missingStandupers env channelID,
      standuper.RoleInChannel ≠ "pm" ∧ standuper.ChannelID = channelID ∧
        env.submitted standuper.UserID standuper.ChannelID = false ∧
        ∃ standupers, env.ListStandupers = .ok standupers ∧ standuper ∈ standupers) ∧
    SendWarning warningEnv "C1"
      = ⟨none, [⟨"C1", "warnNonReporters:<@U1>, <@U5>", false⟩]⟩ ∧
    SendWarning allReportedEnv "C1" = ⟨none, []⟩ := by
  have hsent := sendWarning_sent_eq env channelID
  refine ⟨?_, ?_, ?_, ?_, by decide, by decide⟩
  · rw [hsent]
    rfl
  · rw [hsent]
    split_ifs <;> simp
  · rw [hsent]
    by_cases hm : missingStandupers env channelID = []
    · simp [hm]
    · simp only [if_neg hm, List.length_singleton, true_iff]
      exact List.exists_mem_of_ne_nil _ hm
  · intro s hs
    unfold missingStandupers at hs
    cases hl : env.ListStandupers with
    | error e => simp [hl] at hs
    | ok standupers =>
      simp only [hl, List.mem_filter, Bool.and_eq_true, decide_eq_true_eq,
        Bool.not_eq_true'] at hs
      exact ⟨hs.2.1.1, hs.2.1.2, hs.2.2, standupers, rfl, hs.1⟩

/-! ## Report triggers -/

/-- C20 (the code at a failing input).  With a non-empty reporting time that
the resolver does not match (nil result, nil error), the daily trigger and,
on a Sunday, the weekly trigger dereference the nil result and panic.  With
a reporting time on which the resolver returns an error the weekly trigger
panics as well, since it never reads the error; the daily trigger returns
that error without firing. -/
theorem report_trigger_nil_result_panics :
    CallDisplayYesterdayTeamReport unmatchedTriggerEnv = .panicked ∧
    CallDisplayWeeklyTeamReport unmatchedTriggerEnv = .panicked ∧
    CallDisplayWeeklyTeamReport failingTriggerEnv = .panicked ∧
    CallDisplayYesterdayTeamReport failingTriggerEnv
      = .returned (some "unable to parse") false := by
  decide
/-! ## Report builders: weekend behaviour -/

/-- Counterexample to C22: on a Monday, a developer whose analytics call
succeeds with zero worklog seconds and zero commits, and whose standup of the
prior day is on record, still contributes an entry; it shows the standup
text alone. -/
theorem daily_weekend_entry_kept_for_standup :
    (reportEnv 1 0 0 false).weekday = 1 ∧
    GetCollectorDataOnMember (reportEnv 1 0 0 false) (memberWithRole "developer")
      "2021-03-14" "2021-03-14" = (⟨0, 0⟩, ⟨0, 0⟩, none) ∧
    dailyEntry (reportEnv 1 0 0 false) generalProject (memberWithRole "developer")
      = some ⟨⟨"tagStanduper", "good", [⟨"hasStandup", false⟩]⟩, 0⟩ := by
  decide

theorem dailyScores_weekend_idle (env : ReportEnv) (standuper : Standuper)
    (dataOnUser : CollectorData)
    (hweekend : env.weekday = 0 ∨ env.weekday = 1)
    (hdata : GetCollectorDataOnMember env standuper env.dateYesterday env.dateYesterday
      = (dataOnUser, ⟨0, 0⟩, none)) :
    (dailyScores env standuper).worklogs = "" ∧ (dailyScores env standuper).commits = "" ∧
    (dailyScores env standuper).standup = (processStandup env standuper).1 := by
  unfold dailyScores
  simp only [hdata]
  have hw : ∀ total : Int, (processWorklogs env.localizer env.weekday total 0).1 = "" := by
    intro total
    unfold processWorklogs
    simp [hweekend]
  have hc : ∀ total : Int, (processCommits env.localizer env.weekday total 0).1 = "" := by
    intro total
    unfold processCommits
    simp [hweekend]
  refine ⟨?_, ?_, ?_⟩
  · split_ifs <;> simp [hw]
  · split_ifs <;> simp [hc]
  · trivial

/-- C22 (amended): weekend drop in the daily report.  When the daily report is
computed on a Sunday or Monday, a member whose analytics call succeeded with
zero in-project worklog seconds and zero in-project commits has an empty
worklog text and an empty commit text, and contributes no entry exactly when
the standup text is empty as well; otherwise an entry is emitted whose only
field is the standup text. -/
theorem daily_weekend_drop (env : ReportEnv) (channel : Project) (standuper : Standuper)
    (dataOnUser : CollectorData)
    (hweekend : env.weekday = 0 ∨ env.weekday = 1)
    (hdata : GetCollectorDataOnMember env standuper env.dateYesterday env.dateYesterday
      = (dataOnUser, ⟨0, 0⟩, none)) :
    (dailyScores env standuper).worklogs = "" ∧ (dailyScores env standuper).commits = "" ∧
    (dailyEntry env channel standuper = none ↔ (processStandup env standuper).1 = "") ∧
    (dailyEntry env channel standuper).map (fun item => item.SlackAttachment.Fields)
      = (if (processStandup env standuper).1 = "" then none
          else some [⟨(processStandup env standuper).1, false⟩]) := by
  obtain ⟨hw, hc, hs⟩ := dailyScores_weekend_idle env standuper dataOnUser hweekend hdata
  refine ⟨hw, hc, ?_, ?_⟩
  · unfold dailyEntry
    simp only [hw, hc, hs, String.empty_append]
    split_ifs with h <;> simp [h]
  · unfold dailyEntry
    simp only [hw, hc, hs, String.empty_append]
    split_ifs with h <;> simp

/-- Witness for C22 (amended): on a Monday a developer without activity and
without a standup due is dropped. -/
theorem daily_weekend_drop_witness :
    dailyEntry { noStandupEnv false with
        weekday := 1
        GetCollectorData := fun _ _ _ _ => .ok ⟨0, 0⟩ }
      generalProject (memberWithRole "developer") = none :=
  ((daily_weekend_drop { noStandupEnv false with
        weekday := 1
        GetCollectorData := fun _ _ _ _ => .ok ⟨0, 0⟩ }
      generalProject (memberWithRole "developer") ⟨0, 0⟩ (Or.inr rfl) rfl).2.2.1).mpr rfl

/-- C23 (the code at a failing input).  For a developer with 35 hours of
worklogs the weekly loop body gives, for zero commits, no commit text on a
Sunday but a commit text with icon on a Wednesday, and for 5 commits a
commit text without icon on a Sunday but with icon on a Wednesday; the
entries of the two runs differ, while the worklog text is the same. -/
theorem weekly_commit_text_depends_on_weekday :
    (weeklyScores (emojiReportEnv 0 126000 0) (memberWithRole "developer")).commits = "" ∧
    (weeklyScores (emojiReportEnv 3 126000 0) (memberWithRole "developer")).commits
      = "commitsTranslation::shit:" ∧
    (weeklyScores (emojiReportEnv 0 126000 5) (memberWithRole "developer")).commits
      = "commitsTranslation:" ∧
    (weeklyScores (emojiReportEnv 3 126000 5) (memberWithRole "developer")).commits
      = "commitsTranslation::wink:" ∧
    weeklyEntry (emojiReportEnv 0 126000 0) generalProject (memberWithRole "developer")
      ≠ weeklyEntry (emojiReportEnv 3 126000 0) generalProject (memberWithRole "developer") ∧
    (weeklyScores (emojiReportEnv 0 126000 0) (memberWithRole "developer")).worklogs
      = (weeklyScores (emojiReportEnv 3 126000 0) (memberWithRole "developer")).worklogs := by
  decide

/-! ## Ranking: permutation -/

/-- C26: `sortReportEntries` returns a permutation of its input.  For every
list of entries the sorted entries are a permutation of the input, so they
have the same length and contain every entry as often as the input does,
and the returned attachments are those of the sorted entries, in order. -/
theorem sortReportEntries_permutation (entries : List AttachmentItem) :
    ∃ out, sortedEntries entries = some out ∧
      sortReportEntries entries = some (out.map (fun item => item.SlackAttachment)) ∧
      out.Perm entries ∧ out.length = entries.length ∧
      (∀ item : AttachmentItem, out.count item = entries.count item) ∧
      (∀ attachment : Attachment,
        (out.map (fun item => item.SlackAttachment)).count attachment
          = (entries.map (fun item => item.SlackAttachment)).count attachment) := by
  obtain ⟨out, ho, _, hp, _⟩ := sortedEntries_spec entries
  refine ⟨out, ho, by simp [sortReportEntries, ho], hp, hp.length_eq,
    fun item => hp.count_eq item, fun attachment => ?_⟩
  exact (hp.map _).count_eq attachment

/-! ## Scheduler: minute-exact triggering -/

theorem wrap64_of_range (x : Int) (hlo : -2 ^ 63 ≤ x) (hhi : x < 2 ^ 63) : wrap64 x = x := by
  unfold wrap64
  norm_num at hlo hhi ⊢
  omega

/-- Go reads the clock fields off the unsigned absolute seconds.  For the
instant 2021-03-15 10:00 UTC minus 153722867280912000 minutes, which lies
before the absolute epoch, the wrapped value gives the hour 17 and the
minute 0, where unbounded arithmetic would give 10:00. -/
theorem timeHour_before_absolute_epoch :
    (timeUnix (fun _ => 0) (monday + 36000 - 153722867280912000 * 60)).Hour = 17 ∧
    (timeUnix (fun _ => 0) (monday + 36000 - 153722867280912000 * 60)).Minute = 0 := by
  decide

theorem warningsSent_append (wenv : WarningEnv) (xs ys : List Action) :
    warningsSent wenv (xs ++ ys) = warningsSent wenv xs ++ warningsSent wenv ys := by
  induction xs with
  | nil => rfl
  | cons x rest ih =>
    cases x with
    | SendWarning channelID => simp [warningsSent, ih]
    | SendChannelNotification nt => simp [warningsSent, ih]

/-- Counterexample to C25: the deadline of channel C1 is 10:00 and the warning
offset is 15 minutes.  On the Monday 09:45 tick the hour and minute are those
of the deadline minus the offset and `NotifyChannels` calls `SendWarning` for
the channel and nothing else, but at a moment when every standuper of the
store has reported `SendWarning` makes no `SendMessage` call: no warning is
sent on the matching minute. -/
theorem notifyChannels_warning_unsent :
    ¬ ((⟨monday + 35100, 0⟩ : Time).Weekday = 6 ∨ (⟨monday + 35100, 0⟩ : Time).Weekday = 0) ∧
    deadlineChannel.TeamID = (deadlineEnv monday).properties.TeamID ∧
    (deadlineEnv monday).Parse deadlineChannel.StandupTime = .found ⟨monday + 36000, 0⟩ ∧
    (⟨monday + 35100, 0⟩ : Time).Hour
      = (timeUnix (deadlineEnv monday).Local
          (monday + 36000 - (deadlineEnv monday).properties.ReminderTime * 60)).Hour ∧
    (⟨monday + 35100, 0⟩ : Time).Minute
      = (timeUnix (deadlineEnv monday).Local
          (monday + 36000 - (deadlineEnv monday).properties.ReminderTime * 60)).Minute ∧
    NotifyChannels (deadlineEnv monday) ⟨monday + 35100, 0⟩ idleBot
      = ⟨[], [Action.SendWarning "C1"]⟩ ∧
    SendWarning allReportedEnv "C1" = ⟨none, []⟩ ∧
    warningsSent allReportedEnv
      (NotifyChannels (deadlineEnv monday) ⟨monday + 35100, 0⟩ idleBot).actions = [] := by
  decide

/-- C25 (amended): minute-exact triggering.  On a tick `t` that is not on a
weekend `NotifyChannels` runs the loop body over the listed channels in
order.  For a channel of the bot's own workspace whose non-empty deadline
resolves to the instant `D` (with `D - ReminderTime * 60` inside the `int64`
range), the loop body calls `SendWarning` for the channel exactly when the
hour and minute of `t` are those of `D` minus `ReminderTime * 60` seconds,
and it starts and registers a `NotifierThread` for the channel exactly when
the hour and minute of `t` are those of `D`; it does nothing else.  The
`SendMessage` calls that the tick makes for the channel's warning are those
of that one `SendWarning` call, so a warning message is sent exactly when
the hour and minute match and moreover some standuper of the channel with a
role other than pm has not reported today.  For a channel of another
workspace, and for a channel whose deadline does not resolve, the loop body
changes nothing and sends no warning. -/
theorem notifyChannels_minute_exact (env : SchedulerEnv) (wenv : WarningEnv) (t : Time)
    (st : BotState) (channels : List Channel) (channel other unresolved : Channel) (D : Time)
    (hweekday : ¬ (t.Weekday = 6 ∨ t.Weekday = 0))
    (hlist : env.ListChannels = .ok channels)
    (hteam : channel.TeamID = env.properties.TeamID)
    (hdeadline : channel.StandupTime ≠ "")
    (hD : env.Parse channel.StandupTime = .found D)
    (hmul : -2 ^ 63 ≤ env.properties.ReminderTime * 60 ∧
      env.properties.ReminderTime * 60 < 2 ^ 63)
    (hsub : -2 ^ 63 ≤ D.unix - env.properties.ReminderTime * 60 ∧
      D.unix - env.properties.ReminderTime * 60 < 2 ^ 63)
    (hother : other.TeamID ≠ env.properties.TeamID)
    (hunresolved : ∀ D1 : Time, env.Parse unresolved.StandupTime ≠ .found D1) :
    NotifyChannels env t st = channels.foldl (notifyChannel env t) st ∧
    notifyChannel env t st channel =
      ⟨st.notifierThreads ++
          (if t.Hour = D.Hour ∧ t.Minute = D.Minute then [⟨channel⟩] else []),
        st.actions ++
          (if t.Hour = (timeUnix env.Local (D.unix - env.properties.ReminderTime * 60)).Hour ∧
              t.Minute
                = (timeUnix env.Local (D.unix - env.properties.ReminderTime * 60)).Minute
            then [Action.SendWarning channel.ChannelID] else []) ++
          (if t.Hour = D.Hour ∧ t.Minute = D.Minute
            then [Action.SendChannelNotification ⟨channel⟩] else [])⟩ ∧
    notifyChannel env t st other = st ∧
    notifyChannel env t st unresolved = st ∧
    warningsSent wenv ((notifyChannel env t st channel).actions.drop st.actions.length) =
      (if t.Hour = (timeUnix env.Local (D.unix - env.properties.ReminderTime * 60)).Hour ∧
          t.Minute
            = (timeUnix env.Local (D.unix - env.properties.ReminderTime * 60)).Minute
        then (SendWarning wenv channel.ChannelID).sent else []) ∧
    (warningsSent wenv ((notifyChannel env t st channel).actions.drop st.actions.length) ≠ []
      ↔ (t.Hour = (timeUnix env.Local (D.unix - env.properties.ReminderTime * 60)).Hour ∧
          t.Minute
            = (timeUnix env.Local (D.unix - env.properties.ReminderTime * 60)).Minute) ∧
        ∃ standuper, standuper ∈ missingStandupers wenv channel.ChannelID) ∧
    warningsSent wenv ((notifyChannel env t st other).actions.drop st.actions.length) = [] ∧
    warningsSent wenv
      ((notifyChannel env t st unresolved).actions.drop st.actions.length) = [] := by
  have h1 : NotifyChannels env t st = channels.foldl (notifyChannel env t) st := by
    unfold NotifyChannels
    rw [if_neg hweekday, hlist]
  have h2 : notifyChannel env t st channel =
      ⟨st.notifierThreads ++
          (if t.Hour = D.Hour ∧ t.Minute = D.Minute then [⟨channel⟩] else []),
        st.actions ++
          (if t.Hour = (timeUnix env.Local (D.unix - env.properties.ReminderTime * 60)).Hour ∧
              t.Minute
                = (timeUnix env.Local (D.unix - env.properties.ReminderTime * 60)).Minute
            then [Action.SendWarning channel.ChannelID] else []) ++
          (if t.Hour = D.Hour ∧ t.Minute = D.Minute
            then [Action.SendChannelNotification ⟨channel⟩] else [])⟩ := by
    have hw : wrap64 (D.unix - wrap64 (env.properties.ReminderTime * 60))
        = D.unix - env.properties.ReminderTime * 60 := by
      rw [wrap64_of_range _ hmul.1 hmul.2, wrap64_of_range _ hsub.1 hsub.2]
    unfold notifyChannel
    have hteam1 : ¬ (channel.TeamID ≠ env.properties.TeamID) := fun h => h hteam
    simp only [if_neg hteam1, if_neg hdeadline, hD, hw]
    by_cases hdl : t.Hour = D.Hour ∧ t.Minute = D.Minute
    · by_cases hwn : t.Hour
          = (timeUnix env.Local (D.unix - env.properties.ReminderTime * 60)).Hour ∧
          t.Minute = (timeUnix env.Local (D.unix - env.properties.ReminderTime * 60)).Minute
      · simp only [if_pos hdl, if_pos hwn, AddNewNotifierThread]
        try simp
      · simp only [if_pos hdl, if_neg hwn, AddNewNotifierThread]
        try simp
    · by_cases hwn : t.Hour
          = (timeUnix env.Local (D.unix - env.properties.ReminderTime * 60)).Hour ∧
          t.Minute = (timeUnix env.Local (D.unix - env.properties.ReminderTime * 60)).Minute
      · simp only [if_neg hdl, if_pos hwn]
        try simp
      · simp only [if_neg hdl, if_neg hwn]
        try simp
  have h3 : notifyChannel env t st other = st := by
    unfold notifyChannel
    rw [if_pos hother]
  have h4 : notifyChannel env t st unresolved = st := by
    unfold notifyChannel
    by_cases h1 : unresolved.TeamID ≠ env.properties.TeamID
    · rw [if_pos h1]
    · rw [if_neg h1]
      by_cases h2 : unresolved.StandupTime = ""
      · rw [if_pos h2]
      · rw [if_neg h2]
        cases hp : env.Parse unresolved.StandupTime with
        | error msg => rfl
        | noMatch => rfl
        | found D1 => exact absurd hp (hunresolved D1)
  have h5 : warningsSent wenv
      ((notifyChannel env t st channel).actions.drop st.actions.length) =
      (if t.Hour = (timeUnix env.Local (D.unix - env.properties.ReminderTime * 60)).Hour ∧
          t.Minute
            = (timeUnix env.Local (D.unix - env.properties.ReminderTime * 60)).Minute
        then (SendWarning wenv channel.ChannelID).sent else []) := by
    rw [h2]
    simp only [List.append_assoc, List.drop_left, warningsSent_append]
    by_cases hwn : t.Hour
        = (timeUnix env.Local (D.unix - env.properties.ReminderTime * 60)).Hour ∧
        t.Minute = (timeUnix env.Local (D.unix - env.properties.ReminderTime * 60)).Minute
    · by_cases hdl : t.Hour = D.Hour ∧ t.Minute = D.Minute
      · simp only [if_pos hwn, if_pos hdl, warningsSent, List.append_nil]
      · simp only [if_pos hwn, if_neg hdl, warningsSent, List.append_nil]
    · by_cases hdl : t.Hour = D.Hour ∧ t.Minute = D.Minute
      · simp only [if_neg hwn, if_pos hdl, warningsSent, List.append_nil]
      · simp only [if_neg hwn, if_neg hdl, warningsSent, List.append_nil]
  refine ⟨h1, h2, h3, h4, h5, ?_, ?_, ?_⟩
  · rw [h5]
    by_cases hwn : t.Hour
        = (timeUnix env.Local (D.unix - env.properties.ReminderTime * 60)).Hour ∧
        t.Minute = (timeUnix env.Local (D.unix - env.properties.ReminderTime * 60)).Minute
    · rw [if_pos hwn, sendWarning_sent_ne_nil]
      constructor
      · intro hm
        exact ⟨hwn, List.exists_mem_of_ne_nil _ hm⟩
      · rintro ⟨_, standuper, hs⟩ hm
        rw [hm] at hs
        cases hs
    · rw [if_neg hwn]
      constructor
      · intro hm
        exact absurd rfl hm
      · rintro ⟨h, _⟩
        exact absurd h hwn
  · rw [h3]
    simp [warningsSent]
  · rw [h4]
    simp [warningsSent]

/-- Witness for C25 (amended): with the deadline "10:00" and the offset 15, the
Monday 09:45 tick calls `SendWarning` for the channel and starts no notifier;
in the store with a developer and a designer of the channel who have not
reported, that call sends one warning, which mentions the two. -/
theorem notifyChannels_minute_exact_witness :
    notifyChannel (deadlineEnv monday) ⟨monday + 35100, 0⟩ idleBot deadlineChannel
      = ⟨[], [Action.SendWarning "C1"]⟩ ∧
    warningsSent warningEnv
      ((notifyChannel (deadlineEnv monday) ⟨monday + 35100, 0⟩ idleBot
        deadlineChannel).actions.drop idleBot.actions.length)
      = [⟨"C1", "warnNonReporters:<@U1>, <@U5>", false⟩] :=
  have h := notifyChannels_minute_exact (deadlineEnv monday) warningEnv
    ⟨monday + 35100, 0⟩ idleBot
    [deadlineChannel, silentChannel] deadlineChannel foreignChannel unresolvedChannel
    ⟨monday + 36000, 0⟩ (by decide) rfl rfl (by decide) rfl (by decide) (by decide)
    (by decide)
    (by
      intro D1 h
      have e : (deadlineEnv monday).Parse unresolvedChannel.StandupTime = .noMatch := by
        decide
      rw [e] at h
      cases h)
  ⟨h.2.1.trans (by decide), h.2.2.2.2.1.trans (by decide)⟩

/-! ## Notifier registry -/

/-- C21 (the code at failing inputs).  With two threads of channel A at the
head of the list, `DeleteNotifierThreadFromList` removes only one of them, so
`FindNotifierThread` still finds the channel afterwards.  With the list
B, A, C, A, D the second deletion removes the thread of channel C instead of
the second thread of channel A: a thread of another channel is lost and a
thread of channel A stays.  (With one thread of channel A the call removes
exactly that thread.) -/
theorem deleteNotifierThread_repeated_channel :
    DeleteNotifierThreadFromList [threadOf 1 "A", threadOf 1 "A", threadOf 2 "B"]
        (threadOf 1 "A").channel
      = some [threadOf 1 "A", threadOf 2 "B"] ∧
    (FindNotifierThread [threadOf 1 "A", threadOf 2 "B"] (threadOf 1 "A").channel).2 = true ∧
    DeleteNotifierThreadFromList
        [threadOf 2 "B", threadOf 1 "A", threadOf 3 "C", threadOf 1 "A", threadOf 4 "D"]
        (threadOf 1 "A").channel
      = some [threadOf 2 "B", threadOf 1 "A", threadOf 4 "D"] ∧
    DeleteNotifierThreadFromList [threadOf 2 "B", threadOf 1 "A", threadOf 3 "C"]
        (threadOf 1 "A").channel
      = some [threadOf 2 "B", threadOf 3 "C"] := by
  decide

/-- C27 (the code at a failing input).  For the list A, B, A and the channel A
the third iteration evaluates `bot.notifierThreads[position+1:]` with
`position + 1 = 2` on a slice of length 1 and panics; the same happens for
the list A, A. -/
theorem deleteNotifierThread_panics :
    DeleteNotifierThreadFromList [threadOf 1 "A", threadOf 2 "B", threadOf 1 "A"]
        (threadOf 1 "A").channel = none ∧
    deleteLoop (threadOf 1 "A").channel 2 0
        ⟨[threadOf 1 "A", threadOf 2 "B", threadOf 1 "A"], 3, 0⟩
      = some ⟨[threadOf 2 "B", threadOf 1 "A", threadOf 1 "A"], 1, 1⟩ ∧
    DeleteNotifierThreadFromList [threadOf 1 "A", threadOf 1 "A"]
        (threadOf 1 "A").channel = none := by
  decide

/-! ## `SecondsToHuman` -/

/-- C24 (the code at a failing input).  For `n = 18014398509484799`, which is
`3600 * 5003999585968 - 1`, the conversion `float64(n)` rounds up to
`3600 * 5003999585968`, so the hours field is 5003999585968, one more than
`n / 3600`, and `hours * 3600 + minutes * 60` exceeds `n`.  For worklog-sized
inputs the result is the expected one, e.g. "8:20" for 30000. -/
theorem secondsToHuman_large_input :
    Float64.ofInt 18014398509484799 = Float64.ofInt (3600 * 5003999585968) ∧
    humanHours 18014398509484799 = 5003999585968 ∧
    (18014398509484799 : Int) / 3600 = 5003999585967 ∧
    humanMinutes 18014398509484799 = 59 ∧
    SecondsToHuman 18014398509484799 = "5003999585968:59" ∧
    ¬ (humanHours 18014398509484799 * 3600 + humanMinutes 18014398509484799 * 60
        ≤ 18014398509484799) ∧
    SecondsToHuman 30000 = "8:20" := by
  decide

/-! ## Settings validation -/

/-- C29: `BotSettings.Validate` returns nil exactly when `TeamID`, `TeamName`,
`AccessToken`, `ReportingTime` and `Language` are non-empty and
`ReminderTime` and `ReminderRepeatsMax` are positive; otherwise the error is
that of the first failing check in the order TeamID, TeamName, AccessToken,
ReminderTime, ReminderRepeatsMax, ReportingTime, Language. -/
theorem validate_first_failing_check (bs : BotSettings) :
    (bs.Validate = none ↔
      bs.TeamID ≠ "" ∧ bs.TeamName ≠ "" ∧ bs.AccessToken ≠ "" ∧ bs.ReportingTime ≠ "" ∧
        bs.Language ≠ "" ∧ 0 < bs.ReminderTime ∧ 0 < bs.ReminderRepeatsMax) ∧
    bs.Validate = ((validationChecks bs).find? (fun check => check.1)).map
      (fun check => check.2) := by
  unfold BotSettings.Validate validationChecks
  by_cases h1 : bs.TeamID = ""
  · simp [h1]
  by_cases h2 : bs.TeamName = ""
  · simp [h1, h2]
  by_cases h3 : bs.AccessToken = ""
  · simp [h1, h2, h3]
  by_cases h4 : bs.ReminderTime ≤ 0
  · simp [h1, h2, h3, h4, List.find?]
  by_cases h5 : bs.ReminderRepeatsMax ≤ 0
  · simp [h1, h2, h3, h4, h5, List.find?]
  by_cases h6 : bs.ReportingTime = ""
  · simp [h1, h2, h3, h4, h5, h6, List.find?]
  by_cases h7 : bs.Language = ""
  · simp [h1, h2, h3, h4, h5, h6, h7, List.find?]
  · simp [h1, h2, h3, h4, h5, h6, h7, List.find?]
    omega

/-! ## `formatTime` -/

/-- C30: `formatTime(t)` returns a nil error exactly when `t` splits on ':'
into exactly two parts that `strconv.Atoi` both parses without error, with
the first value in 0..23 and the second in 0..59; in that case it returns
exactly those two values, and for every other input the error is not nil.
For example "10:30" gives 10 and 30, while "24:00", "10:30:00", "ab:30" and
the empty string give an error. -/
theorem formatTime_succeeds_iff (t : String) :
    ((formatTime t).2.2 = none ↔
      ∃ first second, splitColon t = [first, second] ∧
        (Atoi first).2 = none ∧ (Atoi second).2 = none ∧
        0 ≤ (Atoi first).1 ∧ (Atoi first).1 ≤ 23 ∧
        0 ≤ (Atoi second).1 ∧ (Atoi second).1 ≤ 59) ∧
    (∀ first second, splitColon t = [first, second] →
        (Atoi first).2 = none → (Atoi second).2 = none →
        0 ≤ (Atoi first).1 → (Atoi first).1 ≤ 23 →
        0 ≤ (Atoi second).1 → (Atoi second).1 ≤ 59 →
        formatTime t = ((Atoi first).1, (Atoi second).1, none)) ∧
    formatTime "10:30" = (10, 30, none) ∧
    (formatTime "24:00").2.2 ≠ none ∧ (formatTime "10:30:00").2.2 ≠ none ∧
    (formatTime "ab:30").2.2 ≠ none ∧ (formatTime "").2.2 ≠ none := by
  have hsucc : ∀ first second, splitColon t = [first, second] →
      (Atoi first).2 = none → (Atoi second).2 = none →
      0 ≤ (Atoi first).1 → (Atoi first).1 ≤ 23 →
      0 ≤ (Atoi second).1 → (Atoi second).1 ≤ 59 →
      formatTime t = ((Atoi first).1, (Atoi second).1, none) := by
    intro first second hs h1 h2 h3 h4 h5 h6
    have hr : ¬ ((Atoi first).1 < 0 ∨ (Atoi first).1 > 23 ∨ (Atoi second).1 < 0 ∨
        (Atoi second).1 > 59) := by omega
    unfold formatTime
    simp only [hs, h1, h2, ne_eq, not_true_eq_false, if_false, if_neg hr]
  refine ⟨⟨?_, ?_⟩, hsucc, by decide, by decide, by decide, by decide, by decide⟩
  · intro h
    unfold formatTime at h
    split at h
    · rename_i first second hs
      refine ⟨first, second, hs, ?_⟩
      by_cases h1 : (Atoi first).2 = none
      · by_cases h2 : (Atoi second).2 = none
        · by_cases h3 : (Atoi first).1 < 0 ∨ (Atoi first).1 > 23 ∨ (Atoi second).1 < 0 ∨
              (Atoi second).1 > 59
          · simp [h1, h2, h3] at h
          · exact ⟨h1, h2, by omega, by omega, by omega, by omega⟩
        · simp [h1, h2] at h
      · simp [h1] at h
    · simp at h
  · rintro ⟨first, second, hs, h1, h2, h3, h4, h5, h6⟩
    rw [hsucc first second hs h1 h2 h3 h4 h5 h6]

/-! ## Standup analysis -/

theorem mentionsAny_foldl (message : String) (keys : List String) (flag : Bool) :
    keys.foldl (fun flag key => if Contains message key then true else flag) flag
      = (flag || keys.any (fun key => Contains message key)) := by
  induction keys generalizing flag with
  | nil => simp
  | cons key rest ih =>
    rw [List.foldl_cons, ih]
    cases hc : Contains message key <;> cases flag <;> simp [hc]

theorem mentionsAny_iff (message : String) (keys : List String) :
    mentionsAny message keys = true ↔ ∃ key ∈ keys, Contains message key = true := by
  unfold mentionsAny
  rw [mentionsAny_foldl]
  simp

theorem joined_ne_empty (a b : String) : a ++ ", " ++ b ≠ "" := by
  intro h
  have hl := congrArg String.length h
  simp only [String.length_append] at hl
  have h2 : ", ".length = 2 := by decide
  have h0 : "".length = 0 := by decide
  omega

/-- C28: `analizeStandup` accepts exactly the complete standups.  If the
localizer returns a non-empty text for each of the three warnings, then for
every message the result is the empty string exactly when the lower-cased
message contains one of the keywords yesterday, friday, вчера, пятниц, one of
today, сегодня, and one of issue, мешает.  In every case the result is the
warnings of the groups without a keyword, in the order yesterday, today,
problems, joined by a comma and a blank. -/
theorem analizeStandup_complete (localizer : Localizer) (ToLower : String → String)
    (message : String)
    (hyesterday : keywordWarning localizer "noYesterdayMention" yesterdayWorkKeys ≠ "")
    (htoday : keywordWarning localizer "noTodayMention" todayPlansKeys ≠ "")
    (hproblem : keywordWarning localizer "noProblemsMention" problemKeys ≠ "") :
    (analizeStandup localizer ToLower message = "" ↔
      (∃ key ∈ ["yesterday", "friday", "вчера", "пятниц"],
        Contains (ToLower message) key = true) ∧
      (∃ key ∈ ["today", "сегодня"], Contains (ToLower message) key = true) ∧
      (∃ key ∈ ["issue", "мешает"], Contains (ToLower message) key = true)) ∧
    analizeStandup localizer ToLower message =
      ", ".intercalate
        ((if mentionsAny (ToLower message) yesterdayWorkKeys = true then []
            else [keywordWarning localizer "noYesterdayMention" yesterdayWorkKeys]) ++
          (if mentionsAny (ToLower message) todayPlansKeys = true then []
            else [keywordWarning localizer "noTodayMention" todayPlansKeys]) ++
          (if mentionsAny (ToLower message) problemKeys = true then []
            else [keywordWarning localizer "noProblemsMention" problemKeys])) := by
  have hy := mentionsAny_iff (ToLower message) yesterdayWorkKeys
  have ht := mentionsAny_iff (ToLower message) todayPlansKeys
  have hp := mentionsAny_iff (ToLower message) problemKeys
  have hky : yesterdayWorkKeys = ["yesterday", "friday", "вчера", "пятниц"] := rfl
  have hkt : todayPlansKeys = ["today", "сегодня"] := rfl
  have hkp : problemKeys = ["issue", "мешает"] := rfl
  rw [← hky, ← hkt, ← hkp, ← hy, ← ht, ← hp]
  simp only [analizeStandup]
  clear hy ht hp
  generalize mentionsAny (ToLower message) yesterdayWorkKeys = fy
  generalize mentionsAny (ToLower message) todayPlansKeys = ft
  generalize mentionsAny (ToLower message) problemKeys = fp
  cases fy <;> cases ft <;> cases fp <;>
    simp [String.intercalate, String.intercalate.go, hyesterday, htoday, hproblem,
      joined_ne_empty]

/-- Witness for C28: with a localizer that returns the message ID, a message
with all three kinds of keyword is accepted. -/
theorem analizeStandup_complete_witness :
    analizeStandup (fun cfg => cfg.ID) asciiLower "Yesterday: x. Today: y. No ISSUEs." = "" :=
  ((analizeStandup_complete (fun cfg => cfg.ID) asciiLower
      "Yesterday: x. Today: y. No ISSUEs." (by decide) (by decide) (by decide)).1).mpr
    ⟨⟨"yesterday", by decide, by decide⟩, ⟨"today", by decide, by decide⟩,
      ⟨"issue", by decide, by decide⟩⟩
end Comedian
